import Mathlib

/-!
Verification of the core engine of "The Incredible Machine" web clone: the
run-loop controller (GameLoop.js), the physics world wrapper (PhysicsEngine.js),
the object catalog (ObjectRegistry.js), the event bus (EventBus.js), and the
serialization layer of the game-object classes (BaseObject.js and the concrete
kinds).  JavaScript numbers are modelled as rationals, JS objects as Lean
structures, JS Maps as association lists, and method calls on external
collaborators as explicit call traces.
-/

namespace TIM

/-! ### JavaScript value helpers

JS `a || b` returns `b` when `a` is absent (`undefined`/`null`) or falsy
(`0`, `""`, `false`); `a ?? b` returns `b` only when `a` is absent. -/

/-- Model of `v || d` for a possibly-absent JS number `v`. -/
def jsOrQ (v : Option ℚ) (d : ℚ) : ℚ :=
  match v with
  | none => d
  | some q => if q = 0 then d else q

/-- Model of `v ?? d` for a possibly-absent JS number `v`. -/
def jsNullishQ (v : Option ℚ) (d : ℚ) : ℚ := v.getD d

/-- Model of `v || d` for a possibly-absent JS boolean `v`. -/
def jsOrBool (v : Option Bool) (d : Bool) : Bool :=
  match v with
  | none => d
  | some b => if b then b else d

/-- Model of `v || d` for a possibly-absent JS string `v`. -/
def jsOrStr (v : Option String) (d : String) : String :=
  match v with
  | none => d
  | some s => if s = "" then d else s

/-- Model of `v ?? d` for a possibly-absent JS natural `v`. -/
def jsNullishNat (v : Option ℕ) (d : ℕ) : ℕ := v.getD d

/-- Model of `v || null` for a possibly-absent JS string `v` (used for
`options.catchType || null` in Bucket). -/
def jsOrNull (v : Option String) : Option String :=
  match v with
  | none => none
  | some s => if s = "" then none else s

/-! ### EventBus (EventBus.js)

`emit` iterates the listener set for an event; each callback runs inside
`try { callback(data) } catch (err) { console.error(...) }`, so a throwing
listener is logged and the loop continues with the next listener. -/

/-- Outcome of invoking a JS callback: normal return or a thrown exception. -/
inductive JsOutcome (ε : Type) where
  | ok : JsOutcome ε
  | thrown : ε → JsOutcome ε
deriving DecidableEq

/-- A subscribed listener: an identity plus the callback behaviour on the
emitted data. -/
structure BusListener (α ε : Type) where
  lid : ℕ
  callback : α → JsOutcome ε

/-- The loop body of `EventBus.emit`: invoke every listener in order, catching
each callback's exception (the `catch` branch only logs), and record each
invocation with its outcome.  The function is total: no outcome propagates. -/
def emitLoop {α ε : Type} : List (BusListener α ε) → α → List (ℕ × JsOutcome ε)
  | [], _ => []
  | l :: rest, data =>
    match l.callback data with
    | JsOutcome.ok => (l.lid, JsOutcome.ok) :: emitLoop rest data
    | JsOutcome.thrown e => (l.lid, JsOutcome.thrown e) :: emitLoop rest data

/-! ### Serialization layer (BaseObject.js and concrete kinds)

The construction-options object is modelled as a record of optional fields
covering every key any kind reads.  `BaseObject` keeps `x`, `y`, `_angle`,
`_isFixed` and retains the original options verbatim; each kind adds its own
fields.  All kinds are flattened into one `GameObj` record (unused fields keep
their defaults). -/

/-- JS construction-options object: every field a concrete kind reads. -/
structure JsOptions where
  angle : Option ℚ := none
  isFixed : Option Bool := none
  variant : Option String := none
  width : Option ℚ := none
  height : Option ℚ := none
  speed : Option ℚ := none
  direction : Option ℚ := none
  len : Option ℚ := none
  endPoint : Option (ℚ × ℚ) := none
  colorIndex : Option ℕ := none
  catchType : Option String := none
  radius : Option ℚ := none
  angularSpeed : Option ℚ := none
  teeth : Option ℚ := none
  ropeLength : Option ℚ := none
  launchForce : Option ℚ := none
  windRange : Option ℚ := none
  windForce : Option ℚ := none
deriving DecidableEq

/-- A serialized record `{type, x, y, angle, isFixed, options}` as produced by
`BaseObject.serialize`. -/
structure SerRecord where
  type : String
  x : ℚ
  y : ℚ
  angle : ℚ
  isFixed : Bool
  options : JsOptions
deriving DecidableEq

/-- A game object's serialization-relevant state, flattened over all kinds. -/
structure GameObj where
  type : String
  x : ℚ
  y : ℚ
  angle : ℚ
  isFixed : Bool
  options : JsOptions
  variant : String := ""
  width : ℚ := 0
  height : ℚ := 0
  radius : ℚ := 0
  teethCount : ℚ := 0
  angularSpeed : ℚ := 0
  beltSpeed : ℚ := 0
  speed : ℚ := 0
  direction : ℚ := 0
  ropeLength : ℚ := 0
  launchForce : ℚ := 0
  windRange : ℚ := 0
  windForce : ℚ := 0
  ropeLen : ℚ := 0
  endPoint : ℚ × ℚ := (0, 0)
  colorIndex : ℕ := 0
  catchType : Option String := none
deriving DecidableEq

/-- The `BaseObject` constructor: pose from `options.angle || 0`, fixed flag
from `options.isFixed || false`, original options retained verbatim. -/
def baseInit (type : String) (x y : ℚ) (opts : JsOptions) : GameObj :=
  { type := type, x := x, y := y,
    angle := jsOrQ opts.angle 0,
    isFixed := jsOrBool opts.isFixed false,
    options := opts }

/-- `BaseObject.serialize`: `{type: this.type, x, y, angle, isFixed,
options: {...this._options}}`. -/
def baseSerialize (e : GameObj) : SerRecord :=
  { type := e.type, x := e.x, y := e.y, angle := e.angle,
    isFixed := e.isFixed, options := e.options }

/-- `BaseObject.setPosition(x, y)` (pose fields; body updates are physics-side). -/
def setPosition (e : GameObj) (x y : ℚ) : GameObj := { e with x := x, y := y }

/-- `BaseObject.setAngle(angle)` as used by every kind except Candle. -/
def setAngle (e : GameObj) (a : ℚ) : GameObj := { e with angle := a }

/-- `Candle.setAngle(angle)` calls `super.setAngle(0)`: the candle stays upright. -/
def candleSetAngle (e : GameObj) (_a : ℚ) : GameObj := { e with angle := 0 }

/-- The `Ball` constructor: `variant = options.variant || 'bowling'`. -/
def ballInit (x y : ℚ) (opts : JsOptions) : GameObj :=
  { baseInit "ball" x y opts with variant := jsOrStr opts.variant "bowling" }

/-- `Ball.serialize`: base record with `options.variant` forced from the field. -/
def ballSerialize (e : GameObj) : SerRecord :=
  { baseSerialize e with options := { e.options with variant := some e.variant } }

/-- `Ball.deserialize(data)`: rebuilds with `{angle, isFixed, variant:
data.options?.variant || 'bowling'}`. -/
def ballDeserialize (d : SerRecord) : GameObj :=
  ballInit d.x d.y
    { angle := some d.angle, isFixed := some d.isFixed,
      variant := some (jsOrStr d.options.variant "bowling") }

/-- The inline `TennisBall` wrapper registered in registerAllObjects.js:
`super(x, y, {...opts, variant: 'tennis'})` with `type` overridden. -/
def tennisBallInit (x y : ℚ) (opts : JsOptions) : GameObj :=
  { ballInit x y { opts with variant := some "tennis" } with type := "tennis-ball" }

/-- `TennisBall.deserialize(data)` passes only `data.options` — the top-level
`angle` and `isFixed` of the record are not forwarded. -/
def tennisBallDeserialize (d : SerRecord) : GameObj :=
  tennisBallInit d.x d.y d.options

/-- The inline `Baseball` wrapper registered in registerAllObjects.js. -/
def baseballInit (x y : ℚ) (opts : JsOptions) : GameObj :=
  { ballInit x y { opts with variant := some "baseball" } with type := "baseball" }

/-- `Baseball.deserialize(data)` passes only `data.options`. -/
def baseballDeserialize (d : SerRecord) : GameObj :=
  baseballInit d.x d.y d.options

/-- The `Ramp` constructor: `width = options.width || 120`. -/
def rampInit (x y : ℚ) (opts : JsOptions) : GameObj :=
  { baseInit "ramp" x y opts with width := jsOrQ opts.width 120 }

/-- `Ramp.serialize`. -/
def rampSerialize (e : GameObj) : SerRecord :=
  { baseSerialize e with options := { e.options with width := some e.width } }

/-- `Ramp.deserialize`. -/
def rampDeserialize (d : SerRecord) : GameObj :=
  rampInit d.x d.y
    { angle := some d.angle, isFixed := some d.isFixed,
      width := some (jsOrQ d.options.width 120) }

/-- The `Conveyor` constructor: `beltSpeed = options.speed ?? 2`,
`width = options.width || 140`. -/
def conveyorInit (x y : ℚ) (opts : JsOptions) : GameObj :=
  { baseInit "conveyor" x y opts with
    beltSpeed := jsNullishQ opts.speed 2, width := jsOrQ opts.width 140 }

/-- `Conveyor.serialize`. -/
def conveyorSerialize (e : GameObj) : SerRecord :=
  { baseSerialize e with
    options := { e.options with speed := some e.beltSpeed, width := some e.width } }

/-- `Conveyor.deserialize`. -/
def conveyorDeserialize (d : SerRecord) : GameObj :=
  conveyorInit d.x d.y
    { angle := some d.angle, isFixed := some d.isFixed,
      speed := some (jsNullishQ d.options.speed 2),
      width := some (jsOrQ d.options.width 140) }

/-- The `Trampoline` constructor: `width = options.width || 80`. -/
def trampolineInit (x y : ℚ) (opts : JsOptions) : GameObj :=
  { baseInit "trampoline" x y opts with width := jsOrQ opts.width 80 }

/-- `Trampoline.serialize`. -/
def trampolineSerialize (e : GameObj) : SerRecord :=
  { baseSerialize e with options := { e.options with width := some e.width } }

/-- `Trampoline.deserialize`. -/
def trampolineDeserialize (d : SerRecord) : GameObj :=
  trampolineInit d.x d.y
    { angle := some d.angle, isFixed := some d.isFixed,
      width := some (jsOrQ d.options.width 80) }

/-- The `Fan` constructor: `windRange = options.windRange || 200`,
`windForce = options.windForce || 0.0008`. -/
def fanInit (x y : ℚ) (opts : JsOptions) : GameObj :=
  { baseInit "fan" x y opts with
    windRange := jsOrQ opts.windRange 200,
    windForce := jsOrQ opts.windForce (8/10000) }

/-- `Fan.serialize`. -/
def fanSerialize (e : GameObj) : SerRecord :=
  { baseSerialize e with
    options := { e.options with
      windRange := some e.windRange, windForce := some e.windForce } }

/-- `Fan.deserialize`. -/
def fanDeserialize (d : SerRecord) : GameObj :=
  fanInit d.x d.y
    { angle := some d.angle, isFixed := some d.isFixed,
      windRange := some (jsOrQ d.options.windRange 200),
      windForce := some (jsOrQ d.options.windForce (8/10000)) }

/-- The `Spring` constructor: `launchForce = options.launchForce || 0.08`. -/
def springInit (x y : ℚ) (opts : JsOptions) : GameObj :=
  { baseInit "spring" x y opts with launchForce := jsOrQ opts.launchForce (8/100) }

/-- `Spring.serialize`. -/
def springSerialize (e : GameObj) : SerRecord :=
  { baseSerialize e with
    options := { e.options with launchForce := some e.launchForce } }

/-- `Spring.deserialize`. -/
def springDeserialize (d : SerRecord) : GameObj :=
  springInit d.x d.y
    { angle := some d.angle, isFixed := some d.isFixed,
      launchForce := some (jsOrQ d.options.launchForce (8/100)) }

/-- The `Gear` constructor: `radius = options.radius || 28`,
`angularSpeed = options.angularSpeed ?? 0.03`, `teeth = options.teeth || 10`. -/
def gearInit (x y : ℚ) (opts : JsOptions) : GameObj :=
  { baseInit "gear" x y opts with
    radius := jsOrQ opts.radius 28,
    angularSpeed := jsNullishQ opts.angularSpeed (3/100),
    teethCount := jsOrQ opts.teeth 10 }

/-- `Gear.serialize`. -/
def gearSerialize (e : GameObj) : SerRecord :=
  { baseSerialize e with
    options := { e.options with
      radius := some e.radius, angularSpeed := some e.angularSpeed,
      teeth := some e.teethCount } }

/-- `Gear.deserialize`. -/
def gearDeserialize (d : SerRecord) : GameObj :=
  gearInit d.x d.y
    { angle := some d.angle, isFixed := some d.isFixed,
      radius := some (jsOrQ d.options.radius 28),
      angularSpeed := some (jsNullishQ d.options.angularSpeed (3/100)),
      teeth := some (jsOrQ d.options.teeth 10) }

/-- The `Pulley` constructor: `ropeLength = options.ropeLength || 150`. -/
def pulleyInit (x y : ℚ) (opts : JsOptions) : GameObj :=
  { baseInit "pulley" x y opts with ropeLength := jsOrQ opts.ropeLength 150 }

/-- `Pulley.serialize`. -/
def pulleySerialize (e : GameObj) : SerRecord :=
  { baseSerialize e with
    options := { e.options with ropeLength := some e.ropeLength } }

/-- `Pulley.deserialize`. -/
def pulleyDeserialize (d : SerRecord) : GameObj :=
  pulleyInit d.x d.y
    { angle := some d.angle, isFixed := some d.isFixed,
      ropeLength := some (jsOrQ d.options.ropeLength 150) }

/-- The `Domino` constructor reads no kind-specific options. -/
def dominoInit (x y : ℚ) (opts : JsOptions) : GameObj :=
  baseInit "domino" x y opts

/-- `Domino.serialize` is `super.serialize()`. -/
def dominoSerialize (e : GameObj) : SerRecord := baseSerialize e

/-- `Domino.deserialize`. -/
def dominoDeserialize (d : SerRecord) : GameObj :=
  dominoInit d.x d.y { angle := some d.angle, isFixed := some d.isFixed }

/-- The `Balloon` constructor: `radius = options.radius || 18`,
`colorIndex = options.colorIndex ?? Math.floor(Math.random() * 5)`; the random
draw is passed in explicitly as `randIdx`. -/
def balloonInit (x y : ℚ) (opts : JsOptions) (randIdx : ℕ) : GameObj :=
  { baseInit "balloon" x y opts with
    radius := jsOrQ opts.radius 18,
    colorIndex := jsNullishNat opts.colorIndex randIdx }

/-- `Balloon.serialize`: the options gain `colorIndex` but not `radius`. -/
def balloonSerialize (e : GameObj) : SerRecord :=
  { baseSerialize e with
    options := { e.options with colorIndex := some e.colorIndex } }

/-- `Balloon.deserialize` forwards `{angle, isFixed, colorIndex}` only. -/
def balloonDeserialize (d : SerRecord) (randIdx : ℕ) : GameObj :=
  balloonInit d.x d.y
    { angle := some d.angle, isFixed := some d.isFixed,
      colorIndex := d.options.colorIndex } randIdx

/-- The `Bucket` constructor: `width = options.width || 50`,
`height = options.height || 40`, `catchType = options.catchType || null`. -/
def bucketInit (x y : ℚ) (opts : JsOptions) : GameObj :=
  { baseInit "bucket" x y opts with
    width := jsOrQ opts.width 50, height := jsOrQ opts.height 40,
    catchType := jsOrNull opts.catchType }

/-- `Bucket.serialize`. -/
def bucketSerialize (e : GameObj) : SerRecord :=
  { baseSerialize e with
    options := { e.options with
      width := some e.width, height := some e.height,
      catchType := e.catchType } }

/-- `Bucket.deserialize`. -/
def bucketDeserialize (d : SerRecord) : GameObj :=
  bucketInit d.x d.y
    { angle := some d.angle, isFixed := some d.isFixed,
      width := some (jsOrQ d.options.width 50),
      height := some (jsOrQ d.options.height 40),
      catchType := jsOrNull d.options.catchType }

/-- The `Candle` constructor reads no kind-specific options. -/
def candleInit (x y : ℚ) (opts : JsOptions) : GameObj :=
  baseInit "candle" x y opts

/-- `Candle.serialize` is `super.serialize()`. -/
def candleSerialize (e : GameObj) : SerRecord := baseSerialize e

/-- `Candle.deserialize`. -/
def candleDeserialize (d : SerRecord) : GameObj :=
  candleInit d.x d.y { angle := some d.angle, isFixed := some d.isFixed }

/-- The `Rope` constructor: `length = options.length || 100`,
`endPoint = options.endPoint || {x, y: y + length}`. -/
def ropeInit (x y : ℚ) (opts : JsOptions) : GameObj :=
  { baseInit "rope" x y opts with
    ropeLen := jsOrQ opts.len 100,
    endPoint := opts.endPoint.getD (x, y + jsOrQ opts.len 100) }

/-- `Rope.serialize`. -/
def ropeSerialize (e : GameObj) : SerRecord :=
  { baseSerialize e with
    options := { e.options with len := some e.ropeLen, endPoint := some e.endPoint } }

/-- `Rope.deserialize`. -/
def ropeDeserialize (d : SerRecord) : GameObj :=
  ropeInit d.x d.y
    { angle := some d.angle, isFixed := some d.isFixed,
      len := some (jsOrQ d.options.len 100),
      endPoint := d.options.endPoint }

/-- The `Scissors` constructor reads no kind-specific options. -/
def scissorsInit (x y : ℚ) (opts : JsOptions) : GameObj :=
  baseInit "scissors" x y opts

/-- `Scissors.serialize` is `super.serialize()`. -/
def scissorsSerialize (e : GameObj) : SerRecord := baseSerialize e

/-- `Scissors.deserialize`. -/
def scissorsDeserialize (d : SerRecord) : GameObj :=
  scissorsInit d.x d.y { angle := some d.angle, isFixed := some d.isFixed }

/-- The `Mouse` constructor: `speed = options.speed || 1.2`,
`direction = options.direction || 1`. -/
def mouseInit (x y : ℚ) (opts : JsOptions) : GameObj :=
  { baseInit "mouse" x y opts with
    speed := jsOrQ opts.speed (12/10), direction := jsOrQ opts.direction 1 }

/-- `Mouse.serialize`. -/
def mouseSerialize (e : GameObj) : SerRecord :=
  { baseSerialize e with
    options := { e.options with speed := some e.speed, direction := some e.direction } }

/-- `Mouse.deserialize`. -/
def mouseDeserialize (d : SerRecord) : GameObj :=
  mouseInit d.x d.y
    { angle := some d.angle, isFixed := some d.isFixed,
      speed := some (jsOrQ d.options.speed (12/10)),
      direction := some (jsOrQ d.options.direction 1) }

/-! ### ObjectRegistry (ObjectRegistry.js)

A `Map<string, {ObjectClass, metadata}>`; `create` throws on an unknown type
and otherwise instantiates via the registered constructor; `deserialize`
dispatches on `data.type`.  Thrown errors are modelled with `Except`. -/

/-- A registry entry: the registered class's constructor and its static
deserializer (metadata is carried opaquely as a display name). -/
structure RegEntry where
  construct : ℚ → ℚ → JsOptions → GameObj
  deser : SerRecord → GameObj
  displayName : String := ""

/-- The registry map, keyed by type name. -/
abbrev Registry := List (String × RegEntry)

/-- `Map.get` on the registry. -/
def regGet : Registry → String → Option RegEntry
  | [], _ => none
  | (k, v) :: rest, t => if k = t then some v else regGet rest t

/-- `Map.set` on the registry: `register` overwrites an existing entry (the
overwrite is logged with a console warning, not fatal). -/
def regSet : Registry → String → RegEntry → Registry
  | [], t, v => [(t, v)]
  | (k, v0) :: rest, t, v => if k = t then (t, v) :: rest else (k, v0) :: regSet rest t v

/-- The error thrown by `ObjectRegistry.create`/`deserialize` for an
unregistered kind (the spec's UnknownKindError). -/
inductive RegError where
  | unknownType : String → RegError
deriving DecidableEq

/-- `ObjectRegistry.create(type, x, y, options)`. -/
def regCreate (r : Registry) (t : String) (x y : ℚ) (opts : JsOptions) :
    Except RegError GameObj :=
  match regGet r t with
  | none => Except.error (RegError.unknownType t)
  | some entry => Except.ok (entry.construct x y opts)

/-- `ObjectRegistry.deserialize(data)` dispatches on `data.type`. -/
def regDeserialize (r : Registry) (d : SerRecord) : Except RegError GameObj :=
  match regGet r d.type with
  | none => Except.error (RegError.unknownType d.type)
  | some entry => Except.ok (entry.deser d)

/-! ### PhysicsEngine (PhysicsEngine.js)

The Matter.js world is modelled by the list of body ids it contains (plus
constraint ids), the tracked-object `Set` by an insertion-ordered list, the
`_bodyToObject` `Map` by an association list, and the snapshot buffer by an
optional list of per-object entries.  Body state (position/angle/velocities/
sleeping) lives on the objects' bodies. -/

/-- A Matter.js rigid body's identity and mutable state. -/
structure SimBody where
  id : ℕ
  position : ℚ × ℚ
  angle : ℚ
  velocity : ℚ × ℚ
  angularVelocity : ℚ
  sleeping : Bool
deriving DecidableEq

/-- A tracked game object as the engine sees it: identity, owned bodies and
owned constraints. -/
structure SimObj where
  oid : ℕ
  bodies : List SimBody
  constraintIds : List ℕ
deriving DecidableEq

/-- The body ids an object owns. -/
def SimObj.bodyIds (o : SimObj) : List ℕ := o.bodies.map (fun b => b.id)

/-- One `bodyStates` element captured by `takeSnapshot`. -/
structure BodyCapture where
  id : ℕ
  position : ℚ × ℚ
  angle : ℚ
  velocity : ℚ × ℚ
  angularVelocity : ℚ
deriving DecidableEq

/-- One snapshot entry per object (`serialized` is also captured in the source
but never read by `restoreSnapshot`, so only `bodyStates` is modelled). -/
structure SnapEntry where
  bodyStates : List BodyCapture
deriving DecidableEq

/-- `Map.get` on an association list with ℕ keys and values. -/
def mapGet : List (ℕ × ℕ) → ℕ → Option ℕ
  | [], _ => none
  | (k0, v0) :: rest, k => if k0 = k then some v0 else mapGet rest k

/-- `Map.set`: replace the entry with this key, or append a new one. -/
def mapSet : List (ℕ × ℕ) → ℕ → ℕ → List (ℕ × ℕ)
  | [], k, v => [(k, v)]
  | (k0, v0) :: rest, k, v =>
    if k0 = k then (k, v) :: rest else (k0, v0) :: mapSet rest k v

/-- `Map.delete`: remove the entry with this key. -/
def mapDelete : List (ℕ × ℕ) → ℕ → List (ℕ × ℕ)
  | [], _ => []
  | (k0, v0) :: rest, k => if k0 = k then rest else (k0, v0) :: mapDelete rest k

/-- The PhysicsEngine state. -/
structure Engine where
  worldBodies : List ℕ
  worldConstraints : List ℕ
  objects : List SimObj
  bodyToObject : List (ℕ × ℕ)
  snapshot : Option (List SnapEntry)
  walls : List ℕ
  timeScale : ℚ
deriving DecidableEq

/-- The PhysicsEngine constructor: `_addBoundaries` adds the four immovable
wall bodies (floor, left, right, ceiling) directly to the solver's world with
no entity ownership; no objects are tracked and no snapshot exists. -/
def Engine.init (w1 w2 w3 w4 : ℕ) : Engine :=
  { worldBodies := [w1, w2, w3, w4], worldConstraints := [],
    objects := [], bodyToObject := [], snapshot := none,
    walls := [w1, w2, w3, w4], timeScale := 1 }

/-- `addObject(gameObject)`: add to the object `Set` (a no-op if already
present), then `Composite.add` every body and record it in `_bodyToObject`,
then add every constraint. -/
def Engine.addObject (e : Engine) (o : SimObj) : Engine :=
  { e with
    objects := if o ∈ e.objects then e.objects else e.objects ++ [o],
    worldBodies := e.worldBodies ++ o.bodyIds,
    bodyToObject := o.bodies.foldl (fun m b => mapSet m b.id o.oid) e.bodyToObject,
    worldConstraints := e.worldConstraints ++ o.constraintIds }

/-- `removeObject(gameObject)`: remove constraints first, then bodies
(`Composite.remove` drops the first matching element), delete the
`_bodyToObject` entries, and delete the object from the `Set`. -/
def Engine.removeObject (e : Engine) (o : SimObj) : Engine :=
  { e with
    worldConstraints := o.constraintIds.foldl (fun w c => w.erase c) e.worldConstraints,
    worldBodies := o.bodyIds.foldl (fun w i => w.erase i) e.worldBodies,
    bodyToObject := o.bodyIds.foldl (fun m i => mapDelete m i) e.bodyToObject,
    objects := e.objects.erase o }

/-- `clear()`: `removeObject` on every tracked object, iterating a copy of the
set taken before any removal. -/
def Engine.clear (e : Engine) : Engine :=
  e.objects.foldl Engine.removeObject e

/-- Capture one body's transform and velocities (`takeSnapshot` body loop). -/
def captureBody (b : SimBody) : BodyCapture :=
  { id := b.id, position := b.position, angle := b.angle,
    velocity := b.velocity, angularVelocity := b.angularVelocity }

/-- `takeSnapshot()`: one entry per tracked object, in set-iteration order,
overwriting any prior snapshot. -/
def Engine.takeSnapshot (e : Engine) : Engine :=
  { e with snapshot := some (e.objects.map (fun o => ⟨o.bodies.map captureBody⟩)) }

/-- `Body.setPosition/setAngle/setVelocity/setAngularVelocity` followed by
`Sleeping.set(body, false)`, applied to a matched body during restore. -/
def applyCapture (st : BodyCapture) (b : SimBody) : SimBody :=
  { id := b.id, position := st.position, angle := st.angle,
    velocity := st.velocity, angularVelocity := st.angularVelocity,
    sleeping := false }

/-- `obj.bodies.find(b => b.id === bodyState.id)` followed by the state writes:
update the first body whose id matches the captured state, if any. -/
def setFirstBody : List SimBody → BodyCapture → List SimBody
  | [], _ => []
  | b :: rest, st =>
    if b.id = st.id then applyCapture st b :: rest else b :: setFirstBody rest st

/-- The inner loop of `restoreSnapshot` for one (snapshot entry, object) pair:
apply every captured body state to the object's first matching body. -/
def restoreIntoObj (entry : SnapEntry) (o : SimObj) : SimObj :=
  { o with bodies := entry.bodyStates.foldl setFirstBody o.bodies }

/-- Net effect of one restore pass on a single body (proved below to
characterize `restoreIntoObj`): the body takes the last captured state whose id
matches and wakes, or is left untouched when no captured state matches. -/
def restoredBody (states : List BodyCapture) (b : SimBody) : SimBody :=
  match states.reverse.find? (fun st => st.id = b.id) with
  | some st => applyCapture st b
  | none => b

/-- `restoreSnapshot()`: no-op without a snapshot; otherwise pair the i-th
snapshot entry with the i-th currently tracked object (`[...this._objects]`),
for `i` below both lengths, and restore matching bodies within each pair. -/
def Engine.restoreSnapshot (e : Engine) : Engine :=
  match e.snapshot with
  | none => e
  | some snap =>
    { e with objects := List.zipWith restoreIntoObj snap e.objects
                          ++ e.objects.drop snap.length }

/-- `clearSnapshot()`. -/
def Engine.clearSnapshot (e : Engine) : Engine := { e with snapshot := none }

/-- `hasSnapshot()`. -/
def Engine.hasSnapshot (e : Engine) : Bool := e.snapshot.isSome

/-- `setTimeScale(scale)`: writes `engine.timing.timeScale`. -/
def Engine.setTimeScale (e : Engine) (scale : ℚ) : Engine := { e with timeScale := scale }

/-- `getObjectForBody` / collision-time lookup `_bodyToObject.get(body.id)`. -/
def Engine.lookupBody (e : Engine) (bid : ℕ) : Option ℕ := mapGet e.bodyToObject bid

/-! ### Collision dispatch (`_setupCollisionEvents`)

On `collisionStart`, for each pair: resolve both bodies' owners; if both are
tracked, invoke `objA.onCollision(objB, pair)` then `objB.onCollision(objA,
pair)`; otherwise do nothing.  An invocation is recorded as
`(receiver, argument)` by object id. -/

/-- Hook invocations produced for one contact pair. -/
def dispatchPair (m : List (ℕ × ℕ)) (bodyA bodyB : ℕ) : List (ℕ × ℕ) :=
  match mapGet m bodyA, mapGet m bodyB with
  | some objA, some objB => [(objA, objB), (objB, objA)]
  | _, _ => []

/-- Hook invocations produced for all pairs of one `collisionStart` event. -/
def collisionDispatch (m : List (ℕ × ℕ)) (pairs : List (ℕ × ℕ)) : List (ℕ × ℕ) :=
  (pairs.map (fun p => dispatchPair m p.1 p.2)).flatten

/-! ### Engine operation sequences (for the ownership invariant) -/

/-- One externally driven lifecycle operation on the engine. -/
inductive EngineOp where
  | add : SimObj → EngineOp
  | remove : SimObj → EngineOp
  | clearAll : EngineOp
deriving DecidableEq

/-- Apply one lifecycle operation. -/
def Engine.applyOp (e : Engine) : EngineOp → Engine
  | EngineOp.add o => e.addObject o
  | EngineOp.remove o => e.removeObject o
  | EngineOp.clearAll => e.clear

/-- Apply a sequence of lifecycle operations. -/
def Engine.applyOps (e : Engine) (ops : List EngineOp) : Engine :=
  ops.foldl Engine.applyOp e

/-- Side conditions of legitimate use: an added object is a fresh entity whose
bodies are fresh Matter bodies (distinct ids not yet in the world); a removed
object is currently tracked. -/
def validOp (e : Engine) : EngineOp → Prop
  | EngineOp.add o =>
    o.oid ∉ e.objects.map (fun x => x.oid) ∧ o.bodyIds.Nodup ∧
      ∀ i ∈ o.bodyIds, i ∉ e.worldBodies
  | EngineOp.remove o => o ∈ e.objects
  | EngineOp.clearAll => True

/-- Validity of a whole operation sequence, step by step. -/
def validOps : Engine → List EngineOp → Prop
  | _, [] => True
  | e, op :: rest => validOp e op ∧ validOps (e.applyOp op) rest

/-- The body-ownership invariant: every body in the solver's world is either
one of the World's own boundary walls (unowned) or registered in the
body-to-entity lookup to exactly one currently tracked entity that owns it. -/
def ownershipInvariant (e : Engine) : Prop :=
  ∀ bid ∈ e.worldBodies,
    (bid ∈ e.walls ∧ mapGet e.bodyToObject bid = none) ∨
    (∃ o, o ∈ e.objects ∧ mapGet e.bodyToObject bid = some o.oid ∧ bid ∈ o.bodyIds)

/-- The inductive well-formedness of an engine state, maintained by the
lifecycle operations and implying the ownership invariant: tracked objects are
distinct with distinct ids and pairwise disjoint body ids; body ids never
collide with the walls; the solver's world holds, without duplicates, exactly
the walls and the tracked bodies; and the body-to-entity lookup has exactly one
entry per tracked body, pointing at its owner. -/
structure EngineWF (e : Engine) : Prop where
  objectsNodup : e.objects.Nodup
  oidsNodup : (e.objects.map (fun o => o.oid)).Nodup
  bodiesNodup : ∀ o ∈ e.objects, o.bodyIds.Nodup
  disjointBodies : e.objects.Pairwise (fun a b => ∀ i ∈ a.bodyIds, i ∉ b.bodyIds)
  wallsSep : ∀ o ∈ e.objects, ∀ i ∈ o.bodyIds, i ∉ e.walls
  worldNodup : e.worldBodies.Nodup
  worldMem : ∀ bid, bid ∈ e.worldBodies ↔
    (bid ∈ e.walls ∨ ∃ o, o ∈ e.objects ∧ bid ∈ o.bodyIds)
  keysNodup : (e.bodyToObject.map (fun kv => kv.1)).Nodup
  mapChar : ∀ bid v, mapGet e.bodyToObject bid = some v ↔
    ∃ o, o ∈ e.objects ∧ v = o.oid ∧ bid ∈ o.bodyIds

/-! ### Per-step hook dispatch (`PhysicsEngine.step`)

`step(dt)` runs `obj.onBeforeUpdate(dt, this)` on every tracked object, then
`Engine.update(engine, dt)`, then `obj.onAfterUpdate(dt, this)`.  JavaScript
binds a function's formal parameters positionally, so a hook declared as
`onBeforeUpdate(engine)` — the signature of BaseObject's contract and of every
concrete kind — binds its `engine` parameter to the first actual argument. -/

/-- An actual argument of a hook invocation: a JS number or the engine
reference. -/
inductive StepArg where
  | num : ℚ → StepArg
  | engineRef : StepArg
deriving DecidableEq

/-- One event inside `step(dt)`. -/
inductive StepEvent where
  | beforeHook : ℕ → List StepArg → StepEvent
  | integrate : ℚ → StepEvent
  | afterHook : ℕ → List StepArg → StepEvent
deriving DecidableEq

/-- The event trace of `step(dt)` over the tracked objects in set order. -/
def stepTrace (objectIds : List ℕ) (dt : ℚ) : List StepEvent :=
  objectIds.map (fun o => StepEvent.beforeHook o [StepArg.num dt, StepArg.engineRef])
    ++ [StepEvent.integrate dt]
    ++ objectIds.map (fun o => StepEvent.afterHook o [StepArg.num dt, StepArg.engineRef])

/-- Positional binding of a one-parameter JS function's formal parameter. -/
def bindFirstParam (args : List StepArg) : Option StepArg := args.head?

/-! ### GameLoop (GameLoop.js)

The play/pause/reset/speed state machine.  Its calls into the PhysicsEngine
and the render callback are recorded as a trace of `PhysCall`s, interpreted on
the `Engine` model by `Engine.applyCall`. -/

/-- The `LoopState` enum. -/
inductive LoopState where
  | stopped
  | running
  | paused
deriving DecidableEq

/-- A call the loop makes on its collaborators during one transition/frame. -/
inductive PhysCall where
  | takeSnap : PhysCall
  | restoreSnap : PhysCall
  | clearSnap : PhysCall
  | setScale : ℚ → PhysCall
  | stepWorld : ℚ → PhysCall
  | renderFrame : PhysCall
deriving DecidableEq

/-- The GameLoop state. -/
structure Loop where
  state : LoopState
  rafId : Option ℕ
  elapsed : ℚ
  lastTimestamp : ℚ
  speed : ℚ
  maxDt : ℚ
deriving DecidableEq

/-- The GameLoop constructor. -/
def Loop.init : Loop :=
  { state := LoopState.stopped, rafId := none, elapsed := 0,
    lastTimestamp := 0, speed := 1, maxDt := 50 }

/-- The nominal single-frame delta substituted for degenerate deltas (ms). -/
def nominalFrameMs : ℚ := 1667/100

/-- `play()`: no-op while running; from STOPPED take a snapshot and zero the
elapsed time; in both remaining states enter RUNNING, reset the frame
timestamp and schedule a frame. -/
def Loop.play (s : Loop) : Loop × List PhysCall :=
  if s.state = LoopState.running then (s, [])
  else
    let pre : Loop × List PhysCall :=
      if s.state = LoopState.stopped then ({ s with elapsed := 0 }, [PhysCall.takeSnap])
      else (s, [])
    ({ pre.1 with state := LoopState.running, lastTimestamp := 0, rafId := some 1 },
     pre.2)

/-- `pause()`: only from RUNNING; cancel the scheduled frame, keep elapsed. -/
def Loop.pause (s : Loop) : Loop × List PhysCall :=
  if s.state = LoopState.running then
    ({ s with state := LoopState.paused, rafId := none }, [])
  else (s, [])

/-- `reset()`: cancel any scheduled frame, go to STOPPED, zero elapsed and the
frame timestamp, restore then clear the snapshot, and render once. -/
def Loop.reset (s : Loop) : Loop × List PhysCall :=
  ({ s with state := LoopState.stopped, elapsed := 0, lastTimestamp := 0,
            rafId := none },
   [PhysCall.restoreSnap, PhysCall.clearSnap, PhysCall.renderFrame])

/-- `cycleSpeed()`: toggle the multiplier and push it to the World's time
scale. -/
def Loop.cycleSpeed (s : Loop) : Loop × List PhysCall :=
  let sp : ℚ := if s.speed = 1 then 2 else 1
  ({ s with speed := sp }, [PhysCall.setScale sp])

/-- `_frame(timestamp)`: only while RUNNING.  A zero stored timestamp (the
first frame after `play`) is primed to the current timestamp; the delta is
capped at `maxDt` and a non-positive delta is replaced by the nominal frame;
physics is stepped, elapsed accumulates the clamped delta, the render callback
runs, and the next frame is scheduled. -/
def Loop.frame (s : Loop) (timestamp : ℚ) : Loop × List PhysCall :=
  if s.state = LoopState.running then
    let last : ℚ := if s.lastTimestamp = 0 then timestamp else s.lastTimestamp
    let dt0 : ℚ := timestamp - last
    let dt1 : ℚ := if dt0 > s.maxDt then s.maxDt else dt0
    let dt2 : ℚ := if dt1 ≤ 0 then nominalFrameMs else dt1
    ({ s with lastTimestamp := timestamp, elapsed := s.elapsed + dt2,
              rafId := some 1 },
     [PhysCall.stepWorld dt2, PhysCall.renderFrame])
  else (s, [])

/-- Interpretation of one recorded call on the Engine model (`stepWorld`
delegates to the external Matter solver, whose integration is outside this
model; `renderFrame` only reads state). -/
def Engine.applyCall (e : Engine) : PhysCall → Engine
  | PhysCall.takeSnap => e.takeSnapshot
  | PhysCall.restoreSnap => e.restoreSnapshot
  | PhysCall.clearSnap => e.clearSnapshot
  | PhysCall.setScale q => e.setTimeScale q
  | PhysCall.stepWorld _ => e
  | PhysCall.renderFrame => e

/-- Interpretation of a call trace on the Engine model. -/
def Engine.applyCalls (e : Engine) (cs : List PhysCall) : Engine :=
  cs.foldl Engine.applyCall e

/-- Spec-side formula for the per-frame delta, written from the spec's words
for comparison with `Loop.frame`: the nominal frame value on the very first
frame after starting and whenever the raw timestamp delta is non-positive,
otherwise the raw delta capped at 50 ms. -/
def specFrameDt (s : Loop) (timestamp : ℚ) : ℚ :=
  if s.lastTimestamp = 0 ∨ timestamp - s.lastTimestamp ≤ 0 then nominalFrameMs
  else min (timestamp - s.lastTimestamp) 50

/-! ### Concrete instances used by witnesses and counterexamples -/

/-- A registry holding only the ball class. -/
def demoRegistry : Registry :=
  [("ball", { construct := ballInit, deser := ballDeserialize,
              displayName := "Bowling Ball" })]

/-- A dynamic body with id 1 at the origin. -/
def demoBodyA : SimBody :=
  { id := 1, position := (0, 0), angle := 0, velocity := (0, 0),
    angularVelocity := 0, sleeping := false }

/-- A dynamic body with id 2 at (5, 5). -/
def demoBodyB : SimBody :=
  { id := 2, position := (5, 5), angle := 0, velocity := (0, 0),
    angularVelocity := 0, sleeping := false }

/-- A tracked object owning `demoBodyA`. -/
def demoObjA : SimObj := { oid := 10, bodies := [demoBodyA], constraintIds := [] }

/-- A tracked object owning `demoBodyB`. -/
def demoObjB : SimObj := { oid := 20, bodies := [demoBodyB], constraintIds := [] }

/-- An engine with both demo objects tracked. -/
def demoEngine : Engine :=
  ((Engine.init 100 101 102 103).addObject demoObjA).addObject demoObjB

/-- The engine after: snapshot taken with objects A and B; object A removed;
the solver then moved B's body to (9, 9).  Object B was present at snapshot
time and is still tracked when the snapshot is restored. -/
def demoEngineShifted : Engine :=
  let e := (demoEngine.takeSnapshot).removeObject demoObjA
  { e with objects := [{ demoObjB with
      bodies := [{ demoBodyB with position := (9, 9) }] }] }

/-- A running loop whose previous frame timestamp was 100 ms. -/
def demoRunningLoop : Loop :=
  { Loop.init with state := LoopState.running, lastTimestamp := 100 }

/-- A lifecycle-operation sequence exercising add, remove and clear. -/
def demoOps : List EngineOp :=
  [EngineOp.add demoObjA, EngineOp.add demoObjB, EngineOp.remove demoObjA,
   EngineOp.clearAll, EngineOp.add demoObjB]

/-! ## Theorems -/

/-! ### Helper lemmas on the JS value operators -/

theorem jsOrQ_some_zero (q : ℚ) : jsOrQ (some q) 0 = q := by
  simp only [jsOrQ]
  split <;> simp_all

theorem jsOrQ_stable (o : Option ℚ) (d : ℚ) : jsOrQ (some (jsOrQ o d)) d = jsOrQ o d := by
  cases o with
  | none => simp [jsOrQ]
  | some q => by_cases h : q = 0 <;> simp [jsOrQ, h]

theorem jsOrBool_some_false (b : Bool) : jsOrBool (some b) false = b := by
  cases b <;> simp [jsOrBool]

theorem jsOrStr_stable (o : Option String) (d : String) :
    jsOrStr (some (jsOrStr o d)) d = jsOrStr o d := by
  cases o with
  | none => simp [jsOrStr]
  | some s => by_cases h : s = "" <;> simp [jsOrStr, h]

theorem jsOrNull_stable (o : Option String) : jsOrNull (jsOrNull o) = jsOrNull o := by
  cases o with
  | none => rfl
  | some s =>
    simp only [jsOrNull]
    split <;> simp_all [jsOrNull]

/-! ### C10 — event bus emit resilience -/

theorem emitLoop_cons {α ε : Type} (l : BusListener α ε) (rest : List (BusListener α ε))
    (data : α) :
    emitLoop (l :: rest) data = (l.lid, l.callback data) :: emitLoop rest data := by
  cases h : l.callback data <;> simp [emitLoop, h]

/-- C10: when the event bus emits an event, every listener subscribed at emit
time is invoked (in order, exactly once each) even if an earlier listener
throws — a thrown outcome is caught inside the loop and never propagates, so
the invocation record always covers the whole listener list. -/
theorem eventbus_emit_invokes_all_listeners {α ε : Type}
    (listeners : List (BusListener α ε)) (data : α) :
    (emitLoop listeners data).map Prod.fst = listeners.map (fun l => l.lid) ∧
    (emitLoop listeners data).length = listeners.length ∧
    ∀ l ∈ listeners, (l.lid, l.callback data) ∈ emitLoop listeners data := by
  refine ⟨?_, ?_, ?_⟩
  · induction listeners with
    | nil => rfl
    | cons l rest ih => simp [emitLoop_cons, ih]
  · induction listeners with
    | nil => rfl
    | cons l rest ih => simp [emitLoop_cons, ih]
  · intro l hl
    induction listeners with
    | nil => simp at hl
    | cons l0 rest ih =>
      rcases List.mem_cons.mp hl with h | h
      · simp [emitLoop_cons, h]
      · simp only [emitLoop_cons, List.mem_cons]
        exact Or.inr (ih h)

/-! ### C8 — unknown kinds fail predictably in the catalog -/

/-- C8: `create` fails with the unknown-type error for every unregistered
kind and never returns an object in that case; `deserialize` likewise fails on
an unregistered `record.type`; for a registered kind, `create` returns exactly
the object built by the registered constructor. -/
theorem registry_unknown_kind_fails (r : Registry) (t : String) (x y : ℚ)
    (opts : JsOptions) (d : SerRecord) :
    (regGet r t = none →
      regCreate r t x y opts = Except.error (RegError.unknownType t) ∧
      ∀ o : GameObj, regCreate r t x y opts ≠ Except.ok o) ∧
    (regGet r d.type = none →
      regDeserialize r d = Except.error (RegError.unknownType d.type)) ∧
    (∀ entry : RegEntry, regGet r t = some entry →
      regCreate r t x y opts = Except.ok (entry.construct x y opts)) := by
  refine ⟨fun h => ⟨?_, ?_⟩, fun h => ?_, fun entry h => ?_⟩
  · simp [regCreate, h]
  · intro o
    simp [regCreate, h]
  · simp [regDeserialize, h]
  · simp [regCreate, h]

theorem registry_unknown_kind_fails_witness :
    regCreate demoRegistry "nonexistent" 0 0 {} =
      Except.error (RegError.unknownType "nonexistent") ∧
    regCreate demoRegistry "ball" 100 200 { variant := some "tennis" } =
      Except.ok (ballInit 100 200 { variant := some "tennis" }) := by
  have h := registry_unknown_kind_fails demoRegistry "nonexistent" 0 0 {}
    { type := "nonexistent", x := 0, y := 0, angle := 0, isFixed := false, options := {} }
  have h2 := registry_unknown_kind_fails demoRegistry "ball" 100 200
    { variant := some "tennis" }
    { type := "ball", x := 0, y := 0, angle := 0, isFixed := false, options := {} }
  refine ⟨(h.1 (by rfl)).1, ?_⟩
  exact h2.2.2 _ (by rfl)

/-! ### C2 — collision dispatch symmetry -/

/-- C2: for a discovered contact pair whose two bodies are owned by tracked
entities `ea ≠ eb`, `ea`'s hook is invoked exactly once with `eb` as argument
and `eb`'s exactly once with `ea`, and these are the only invocations for the
pair; a pair with an untracked body on either side (e.g. a boundary wall)
produces no invocation at all. -/
theorem collision_dispatch_symmetry (m : List (ℕ × ℕ)) (a b ea eb : ℕ)
    (ha : mapGet m a = some ea) (hb : mapGet m b = some eb) (hne : ea ≠ eb) :
    (dispatchPair m a b).count (ea, eb) = 1 ∧
    (dispatchPair m a b).count (eb, ea) = 1 ∧
    (dispatchPair m a b).length = 2 ∧
    ((dispatchPair m a b).filter (fun c => c.1 = ea)) = [(ea, eb)] ∧
    ((dispatchPair m a b).filter (fun c => c.1 = eb)) = [(eb, ea)] ∧
    (∀ a2 b2, mapGet m a2 = none ∨ mapGet m b2 = none → dispatchPair m a2 b2 = []) := by
  have hd : dispatchPair m a b = [(ea, eb), (eb, ea)] := by
    simp [dispatchPair, ha, hb]
  have hne2 : eb ≠ ea := Ne.symm hne
  refine ⟨?_, ?_, ?_, ?_, ?_, ?_⟩
  · rw [hd]
    simp [List.count_cons, Prod.ext_iff, hne, hne2]
  · rw [hd]
    simp [List.count_cons, Prod.ext_iff, hne, hne2]
  · rw [hd]
    rfl
  · rw [hd]
    simp [List.filter, hne, hne2]
  · rw [hd]
    simp [List.filter, hne, hne2]
  · intro a2 b2 h
    rcases h with h | h
    · simp [dispatchPair, h]
    · cases h2 : mapGet m a2 <;> simp [dispatchPair, h, h2]

theorem collision_dispatch_symmetry_witness :
    (dispatchPair demoEngine.bodyToObject 1 2).count (10, 20) = 1 ∧
    (dispatchPair demoEngine.bodyToObject 1 2).count (20, 10) = 1 ∧
    dispatchPair demoEngine.bodyToObject 1 103 = [] := by
  have h := collision_dispatch_symmetry demoEngine.bodyToObject 1 2 10 20
    (by decide) (by decide) (by decide)
  exact ⟨h.1, h.2.1, h.2.2.2.2.2 1 103 (Or.inr (by decide))⟩

/-! ### C1 — run-loop state machine -/

/-- C1: the loop starts Idle (STOPPED) at speed 1; `play()` from Idle enters
RUNNING, takes exactly one snapshot and zeroes elapsed time; `play()` from
PAUSED resumes RUNNING without taking a snapshot and keeps elapsed time;
`pause()` from RUNNING enters PAUSED without altering elapsed time; `reset()`
from RUNNING or PAUSED returns to STOPPED, zeroes elapsed time and leaves any
World without a snapshot; `cycleSpeed()` toggles the multiplier strictly
between 1 and 2, never producing any other value. -/
theorem runloop_state_machine (s : Loop) (e : Engine) :
    (Loop.init.state = LoopState.stopped ∧ Loop.init.speed = 1) ∧
    (s.state = LoopState.stopped →
      (s.play).1.state = LoopState.running ∧
      (s.play).2.count PhysCall.takeSnap = 1 ∧
      (s.play).1.elapsed = 0) ∧
    (s.state = LoopState.paused →
      (s.play).1.state = LoopState.running ∧
      (s.play).2.count PhysCall.takeSnap = 0 ∧
      (s.play).1.elapsed = s.elapsed) ∧
    (s.state = LoopState.running →
      (s.pause).1.state = LoopState.paused ∧ (s.pause).1.elapsed = s.elapsed) ∧
    (s.state = LoopState.running ∨ s.state = LoopState.paused →
      (s.reset).1.state = LoopState.stopped ∧ (s.reset).1.elapsed = 0 ∧
      (e.applyCalls (s.reset).2).hasSnapshot = false) ∧
    (s.speed = 1 ∨ s.speed = 2 →
      ((s.cycleSpeed).1.speed = if s.speed = 1 then 2 else 1) ∧
      ((s.cycleSpeed).1.speed = 1 ∨ (s.cycleSpeed).1.speed = 2)) := by
  refine ⟨⟨rfl, rfl⟩, fun h => ?_, fun h => ?_, fun h => ?_, fun h => ?_, fun h => ?_⟩
  · simp [Loop.play, h]
  · simp [Loop.play, h]
  · simp [Loop.pause, h]
  · refine ⟨rfl, rfl, ?_⟩
    simp [Loop.reset, Engine.applyCalls, Engine.applyCall, Engine.hasSnapshot,
      Engine.clearSnapshot]
  · rcases h with h | h <;>
      simp [Loop.cycleSpeed, h]

theorem runloop_state_machine_witness :
    ((Loop.init.play).1.state = LoopState.running ∧
      (Loop.init.play).2.count PhysCall.takeSnap = 1 ∧
      (Loop.init.play).1.elapsed = 0) ∧
    (((Loop.init.play).1.pause).1.state = LoopState.paused ∧
      (((Loop.init.play).1.pause).1.play).2.count PhysCall.takeSnap = 0) ∧
    ((demoEngine.applyCalls ((Loop.init.play).1.reset).2).hasSnapshot = false) ∧
    ((Loop.init.cycleSpeed).1.speed = 1 ∨ (Loop.init.cycleSpeed).1.speed = 2) := by
  have h0 := runloop_state_machine Loop.init demoEngine
  have h1 := runloop_state_machine (Loop.init.play).1 demoEngine
  have hplay := h0.2.1 (by decide)
  have hpause := h1.2.2.2.1 (by decide)
  have h2 := runloop_state_machine ((Loop.init.play).1.pause).1 demoEngine
  have hresume := h2.2.2.1 (by decide)
  have hreset := h1.2.2.2.2.1 (Or.inl (by decide))
  have hcycle := h0.2.2.2.2.2 (Or.inl (by decide))
  exact ⟨hplay, ⟨hpause.1, hresume.2.1⟩, hreset.2.2, hcycle.2⟩

/-! ### C7 — per-frame delta clamping -/

/-- C7: while RUNNING, the delta by which the World is stepped equals the
spec's formula — the nominal frame value on the very first frame after
starting and whenever the raw timestamp delta is non-positive, otherwise the
raw delta capped at 50 ms — elapsed time accumulates exactly that clamped
delta, and the render callback is invoked exactly once, after the step. -/
theorem frame_dt_clamping (s : Loop) (ts : ℚ) (h : s.state = LoopState.running)
    (hm : s.maxDt = 50) :
    (s.frame ts).2 = [PhysCall.stepWorld (specFrameDt s ts), PhysCall.renderFrame] ∧
    (s.frame ts).1.elapsed = s.elapsed + specFrameDt s ts := by
  have hdt :
      (if (if ts - (if s.lastTimestamp = 0 then ts else s.lastTimestamp) > s.maxDt
            then s.maxDt
            else ts - (if s.lastTimestamp = 0 then ts else s.lastTimestamp)) ≤ 0
        then nominalFrameMs
        else if ts - (if s.lastTimestamp = 0 then ts else s.lastTimestamp) > s.maxDt
          then s.maxDt
          else ts - (if s.lastTimestamp = 0 then ts else s.lastTimestamp)) =
        specFrameDt s ts := by
    rw [hm]
    by_cases h0 : s.lastTimestamp = 0
    · simp [h0, specFrameDt]
      norm_num
    · simp only [h0, if_false, specFrameDt]
      by_cases hle : ts - s.lastTimestamp ≤ 0
      · have hng : ¬ts - s.lastTimestamp > 50 := by linarith
        simp [hle, hng, h0]
      · have hpos : 0 < ts - s.lastTimestamp := lt_of_not_ge hle
        by_cases hg : ts - s.lastTimestamp > 50
        · have hn : ¬(50 : ℚ) ≤ 0 := by norm_num
          simp only [hg, if_true, hn, if_false, hle, false_or, h0, min_def, reduceIte]
          rw [if_neg (by linarith)]
        · simp only [hg, if_false, hle, false_or, h0, min_def, reduceIte]
          rw [if_pos (by linarith)]
  constructor
  · simp only [Loop.frame, h, if_true, reduceIte]
    rw [hdt]
  · simp only [Loop.frame, h, if_true, reduceIte]
    rw [hdt]

theorem frame_dt_clamping_witness :
    (demoRunningLoop.frame 300).2 =
      [PhysCall.stepWorld (specFrameDt demoRunningLoop 300), PhysCall.renderFrame] ∧
    (demoRunningLoop.frame 300).1.elapsed =
      demoRunningLoop.elapsed + specFrameDt demoRunningLoop 300 := by
  exact frame_dt_clamping demoRunningLoop 300 (by decide) (by decide)

/-! ### C3 — the per-step hook's engine parameter -/

/-- C3 (code bug): `step(dt)` does invoke the per-step hook of every tracked
entity exactly once before the solver integrates, but it calls
`obj.onBeforeUpdate(dt, this)` while the BaseObject contract and every concrete
kind declare the hook as `onBeforeUpdate(engine)`; positional binding therefore
hands the hook the number `dt`, not the Simulation World, so a hook such as the
mouse's walking behaviour cannot query the world's bodies through its
parameter.  Evaluated here at a world tracking one object stepped by the
nominal frame delta. -/
theorem step_hook_engine_param_bug :
    stepTrace [7] nominalFrameMs =
      [StepEvent.beforeHook 7 [StepArg.num nominalFrameMs, StepArg.engineRef],
       StepEvent.integrate nominalFrameMs,
       StepEvent.afterHook 7 [StepArg.num nominalFrameMs, StepArg.engineRef]] ∧
    bindFirstParam [StepArg.num nominalFrameMs, StepArg.engineRef] =
      some (StepArg.num nominalFrameMs) ∧
    some (StepArg.num nominalFrameMs) ≠ some StepArg.engineRef := by
  refine ⟨rfl, rfl, ?_⟩
  decide

/-! ### C6 — serialization round-trip -/

/-- C6 counterexample: a balloon constructed with a non-default radius does
not round-trip — `Balloon.serialize` stores only `colorIndex` among the
kind-specific options it rebuilds, and `Balloon.deserialize` forwards only
`{angle, isFixed, colorIndex}`, so the radius option is lost and the restored
balloon falls back to the default radius 18 ≠ 30. -/
theorem serialization_roundtrip_counterexample :
    (balloonDeserialize
        (balloonSerialize (balloonInit 200 100 { radius := some 30, colorIndex := some 2 } 0))
        0).radius ≠
      (balloonInit 200 100 { radius := some 30, colorIndex := some 2 } 0).radius := by
  decide

/-- C6 amended: `deserialize(serialize(e))` preserves kind, position, angle,
fixed flag and all kind-specific options for every kind, with exactly two
code-forced exceptions — (a) the balloon's `radius` option is dropped by
`Balloon.deserialize` (the conjunct below omits it), and (b) the registry's
`tennis-ball`/`baseball` wrapper kinds forward only the retained construction
options, so their angle round-trips as built from those options (an angle
changed later by `setAngle` is not restored; the conjuncts below state the
round-trip for wrapper entities whose angle comes from construction).  The
spec's concrete tennis-variant ball case holds as stated. -/
theorem serialization_roundtrip_amended :
    (∀ x y px py a : ℚ, ∀ opts : JsOptions,
      let e := setAngle (setPosition (ballInit x y opts) px py) a
      let r := ballDeserialize (ballSerialize e)
      r.type = e.type ∧ r.x = e.x ∧ r.y = e.y ∧ r.angle = e.angle ∧
        r.isFixed = e.isFixed ∧ r.variant = e.variant) ∧
    (∀ x y px py : ℚ, ∀ opts : JsOptions,
      let e := setPosition (tennisBallInit x y opts) px py
      let r := tennisBallDeserialize (ballSerialize e)
      r.type = e.type ∧ r.x = e.x ∧ r.y = e.y ∧ r.angle = e.angle ∧
        r.isFixed = e.isFixed ∧ r.variant = e.variant) ∧
    (∀ x y px py : ℚ, ∀ opts : JsOptions,
      let e := setPosition (baseballInit x y opts) px py
      let r := baseballDeserialize (ballSerialize e)
      r.type = e.type ∧ r.x = e.x ∧ r.y = e.y ∧ r.angle = e.angle ∧
        r.isFixed = e.isFixed ∧ r.variant = e.variant) ∧
    (∀ x y px py a : ℚ, ∀ opts : JsOptions,
      let e := setAngle (setPosition (rampInit x y opts) px py) a
      let r := rampDeserialize (rampSerialize e)
      r.type = e.type ∧ r.x = e.x ∧ r.y = e.y ∧ r.angle = e.angle ∧
        r.isFixed = e.isFixed ∧ r.width = e.width) ∧
    (∀ x y px py a : ℚ, ∀ opts : JsOptions,
      let e := setAngle (setPosition (conveyorInit x y opts) px py) a
      let r := conveyorDeserialize (conveyorSerialize e)
      r.type = e.type ∧ r.x = e.x ∧ r.y = e.y ∧ r.angle = e.angle ∧
        r.isFixed = e.isFixed ∧ r.beltSpeed = e.beltSpeed ∧ r.width = e.width) ∧
    (∀ x y px py a : ℚ, ∀ opts : JsOptions,
      let e := setAngle (setPosition (trampolineInit x y opts) px py) a
      let r := trampolineDeserialize (trampolineSerialize e)
      r.type = e.type ∧ r.x = e.x ∧ r.y = e.y ∧ r.angle = e.angle ∧
        r.isFixed = e.isFixed ∧ r.width = e.width) ∧
    (∀ x y px py a : ℚ, ∀ opts : JsOptions,
      let e := setAngle (setPosition (fanInit x y opts) px py) a
      let r := fanDeserialize (fanSerialize e)
      r.type = e.type ∧ r.x = e.x ∧ r.y = e.y ∧ r.angle = e.angle ∧
        r.isFixed = e.isFixed ∧ r.windRange = e.windRange ∧ r.windForce = e.windForce) ∧
    (∀ x y px py a : ℚ, ∀ opts : JsOptions,
      let e := setAngle (setPosition (springInit x y opts) px py) a
      let r := springDeserialize (springSerialize e)
      r.type = e.type ∧ r.x = e.x ∧ r.y = e.y ∧ r.angle = e.angle ∧
        r.isFixed = e.isFixed ∧ r.launchForce = e.launchForce) ∧
    (∀ x y px py a : ℚ, ∀ opts : JsOptions,
      let e := setAngle (setPosition (gearInit x y opts) px py) a
      let r := gearDeserialize (gearSerialize e)
      r.type = e.type ∧ r.x = e.x ∧ r.y = e.y ∧ r.angle = e.angle ∧
        r.isFixed = e.isFixed ∧ r.radius = e.radius ∧
        r.angularSpeed = e.angularSpeed ∧ r.teethCount = e.teethCount) ∧
    (∀ x y px py a : ℚ, ∀ opts : JsOptions,
      let e := setAngle (setPosition (pulleyInit x y opts) px py) a
      let r := pulleyDeserialize (pulleySerialize e)
      r.type = e.type ∧ r.x = e.x ∧ r.y = e.y ∧ r.angle = e.angle ∧
        r.isFixed = e.isFixed ∧ r.ropeLength = e.ropeLength) ∧
    (∀ x y px py a : ℚ, ∀ opts : JsOptions,
      let e := setAngle (setPosition (dominoInit x y opts) px py) a
      let r := dominoDeserialize (dominoSerialize e)
      r.type = e.type ∧ r.x = e.x ∧ r.y = e.y ∧ r.angle = e.angle ∧
        r.isFixed = e.isFixed) ∧
    (∀ x y px py a : ℚ, ∀ opts : JsOptions, ∀ randIdx randIdx2 : ℕ,
      let e := setAngle (setPosition (balloonInit x y opts randIdx) px py) a
      let r := balloonDeserialize (balloonSerialize e) randIdx2
      r.type = e.type ∧ r.x = e.x ∧ r.y = e.y ∧ r.angle = e.angle ∧
        r.isFixed = e.isFixed ∧ r.colorIndex = e.colorIndex) ∧
    (∀ x y px py a : ℚ, ∀ opts : JsOptions,
      let e := setAngle (setPosition (bucketInit x y opts) px py) a
      let r := bucketDeserialize (bucketSerialize e)
      r.type = e.type ∧ r.x = e.x ∧ r.y = e.y ∧ r.angle = e.angle ∧
        r.isFixed = e.isFixed ∧ r.width = e.width ∧ r.height = e.height ∧
        r.catchType = e.catchType) ∧
    (∀ x y px py a : ℚ, ∀ opts : JsOptions,
      let e := candleSetAngle (setPosition (candleInit x y opts) px py) a
      let r := candleDeserialize (candleSerialize e)
      r.type = e.type ∧ r.x = e.x ∧ r.y = e.y ∧ r.angle = e.angle ∧
        r.isFixed = e.isFixed) ∧
    (∀ x y px py a : ℚ, ∀ opts : JsOptions,
      let e := setAngle (setPosition (ropeInit x y opts) px py) a
      let r := ropeDeserialize (ropeSerialize e)
      r.type = e.type ∧ r.x = e.x ∧ r.y = e.y ∧ r.angle = e.angle ∧
        r.isFixed = e.isFixed ∧ r.ropeLen = e.ropeLen ∧ r.endPoint = e.endPoint) ∧
    (∀ x y px py a : ℚ, ∀ opts : JsOptions,
      let e := setAngle (setPosition (scissorsInit x y opts) px py) a
      let r := scissorsDeserialize (scissorsSerialize e)
      r.type = e.type ∧ r.x = e.x ∧ r.y = e.y ∧ r.angle = e.angle ∧
        r.isFixed = e.isFixed) ∧
    (∀ x y px py a : ℚ, ∀ opts : JsOptions,
      let e := setAngle (setPosition (mouseInit x y opts) px py) a
      let r := mouseDeserialize (mouseSerialize e)
      r.type = e.type ∧ r.x = e.x ∧ r.y = e.y ∧ r.angle = e.angle ∧
        r.isFixed = e.isFixed ∧ r.speed = e.speed ∧ r.direction = e.direction) ∧
    ((ballSerialize (ballInit 100 200 { variant := some "tennis" })).type = "ball" ∧
      (ballSerialize (ballInit 100 200 { variant := some "tennis" })).x = 100 ∧
      (ballSerialize (ballInit 100 200 { variant := some "tennis" })).y = 200 ∧
      (ballSerialize (ballInit 100 200 { variant := some "tennis" })).options.variant =
        some "tennis" ∧
      (ballDeserialize
          (ballSerialize (ballInit 100 200 { variant := some "tennis" }))).type = "ball" ∧
      (ballDeserialize
          (ballSerialize (ballInit 100 200 { variant := some "tennis" }))).variant =
        "tennis") := by
  refine ⟨?_, ?_, ?_, ?_, ?_, ?_, ?_, ?_, ?_, ?_, ?_, ?_, ?_, ?_, ?_, ?_, ?_, ?_⟩
  · intro x y px py a opts
    simp [ballInit, baseInit, ballSerialize, baseSerialize, ballDeserialize,
      setPosition, setAngle, jsOrQ_some_zero, jsOrBool_some_false, jsOrStr_stable]
  · intro x y px py opts
    simp [tennisBallInit, ballInit, baseInit, ballSerialize, baseSerialize,
      tennisBallDeserialize, setPosition, jsOrQ_some_zero, jsOrBool_some_false,
      jsOrStr, jsOrQ, jsOrBool]
  · intro x y px py opts
    simp [baseballInit, ballInit, baseInit, ballSerialize, baseSerialize,
      baseballDeserialize, setPosition, jsOrQ_some_zero, jsOrBool_some_false,
      jsOrStr, jsOrQ, jsOrBool]
  · intro x y px py a opts
    simp [rampInit, baseInit, rampSerialize, baseSerialize, rampDeserialize,
      setPosition, setAngle, jsOrQ_some_zero, jsOrBool_some_false, jsOrQ_stable]
  · intro x y px py a opts
    simp [conveyorInit, baseInit, conveyorSerialize, baseSerialize,
      conveyorDeserialize, setPosition, setAngle, jsOrQ_some_zero,
      jsOrBool_some_false, jsOrQ_stable, jsNullishQ]
  · intro x y px py a opts
    simp [trampolineInit, baseInit, trampolineSerialize, baseSerialize,
      trampolineDeserialize, setPosition, setAngle, jsOrQ_some_zero,
      jsOrBool_some_false, jsOrQ_stable]
  · intro x y px py a opts
    simp [fanInit, baseInit, fanSerialize, baseSerialize, fanDeserialize,
      setPosition, setAngle, jsOrQ_some_zero, jsOrBool_some_false, jsOrQ_stable]
  · intro x y px py a opts
    simp [springInit, baseInit, springSerialize, baseSerialize, springDeserialize,
      setPosition, setAngle, jsOrQ_some_zero, jsOrBool_some_false, jsOrQ_stable]
  · intro x y px py a opts
    simp [gearInit, baseInit, gearSerialize, baseSerialize, gearDeserialize,
      setPosition, setAngle, jsOrQ_some_zero, jsOrBool_some_false, jsOrQ_stable,
      jsNullishQ]
  · intro x y px py a opts
    simp [pulleyInit, baseInit, pulleySerialize, baseSerialize, pulleyDeserialize,
      setPosition, setAngle, jsOrQ_some_zero, jsOrBool_some_false, jsOrQ_stable]
  · intro x y px py a opts
    simp [dominoInit, baseInit, dominoSerialize, baseSerialize, dominoDeserialize,
      setPosition, setAngle, jsOrQ_some_zero, jsOrBool_some_false]
  · intro x y px py a opts randIdx randIdx2
    simp [balloonInit, baseInit, balloonSerialize, baseSerialize,
      balloonDeserialize, setPosition, setAngle, jsOrQ_some_zero,
      jsOrBool_some_false, jsNullishNat]
  · intro x y px py a opts
    simp [bucketInit, baseInit, bucketSerialize, baseSerialize, bucketDeserialize,
      setPosition, setAngle, jsOrQ_some_zero, jsOrBool_some_false, jsOrQ_stable,
      jsOrNull_stable]
  · intro x y px py a opts
    simp [candleInit, baseInit, candleSerialize, baseSerialize, candleDeserialize,
      setPosition, candleSetAngle, jsOrQ_some_zero, jsOrBool_some_false, jsOrQ]
  · intro x y px py a opts
    simp [ropeInit, baseInit, ropeSerialize, baseSerialize, ropeDeserialize,
      setPosition, setAngle, jsOrQ_some_zero, jsOrBool_some_false, jsOrQ_stable]
  · intro x y px py a opts
    simp [scissorsInit, baseInit, scissorsSerialize, baseSerialize,
      scissorsDeserialize, setPosition, setAngle, jsOrQ_some_zero,
      jsOrBool_some_false]
  · intro x y px py a opts
    simp [mouseInit, baseInit, mouseSerialize, baseSerialize, mouseDeserialize,
      setPosition, setAngle, jsOrQ_some_zero, jsOrBool_some_false, jsOrQ_stable]
  · refine ⟨rfl, rfl, rfl, ?_, rfl, ?_⟩ <;> decide

/-! ### Snapshot restore: characterization lemmas -/

theorem applyCapture_id (st : BodyCapture) (b : SimBody) :
    (applyCapture st b).id = b.id := rfl

theorem applyCapture_overwrite (st2 st : BodyCapture) (b : SimBody) :
    applyCapture st2 (applyCapture st b) = applyCapture st2 b := rfl

theorem restoredBody_id (states : List BodyCapture) (b : SimBody) :
    (restoredBody states b).id = b.id := by
  unfold restoredBody
  cases h : states.reverse.find? (fun st => st.id = b.id) <;> simp [applyCapture]

theorem restoredBody_eq_of_id (states : List BodyCapture) (b c : SimBody)
    (h : c.id = b.id) :
    restoredBody states c =
      match states.reverse.find? (fun st => st.id = b.id) with
      | some st => applyCapture st c
      | none => c := by
  unfold restoredBody
  rw [h]

theorem restoredBody_idem (states : List BodyCapture) (b : SimBody) :
    restoredBody states (restoredBody states b) = restoredBody states b := by
  cases hf : states.reverse.find? (fun st => st.id = b.id) with
  | none =>
    have h1 : restoredBody states b = b := by
      unfold restoredBody
      rw [hf]
    rw [h1]
    exact h1
  | some st =>
    have h1 : restoredBody states b = applyCapture st b := by
      unfold restoredBody
      rw [hf]
    rw [h1, restoredBody_eq_of_id states b (applyCapture st b) rfl, hf]
    exact applyCapture_overwrite st st b

theorem map_applyIf_of_not_mem (st : BodyCapture) (bodies : List SimBody)
    (h : ∀ b ∈ bodies, b.id ≠ st.id) :
    bodies.map (fun b => if b.id = st.id then applyCapture st b else b) = bodies := by
  induction bodies with
  | nil => rfl
  | cons b rest ih =>
    simp only [List.map_cons, if_neg (h b (List.mem_cons_self b rest)),
      ih (fun b2 hb2 => h b2 (List.mem_cons_of_mem b hb2))]

theorem setFirstBody_ids (bodies : List SimBody) (st : BodyCapture) :
    (setFirstBody bodies st).map (fun b => b.id) = bodies.map (fun b => b.id) := by
  induction bodies with
  | nil => rfl
  | cons b rest ih =>
    by_cases hb : b.id = st.id <;> simp [setFirstBody, hb, applyCapture, ih]

theorem setFirstBody_eq_map (bodies : List SimBody) (st : BodyCapture)
    (h : (bodies.map (fun b => b.id)).Nodup) :
    setFirstBody bodies st =
      bodies.map (fun b => if b.id = st.id then applyCapture st b else b) := by
  induction bodies with
  | nil => rfl
  | cons b rest ih =>
    simp only [List.map_cons, List.nodup_cons] at h
    by_cases hb : b.id = st.id
    · have hrest : ∀ b2 ∈ rest, b2.id ≠ st.id := by
        intro b2 hb2 hc
        exact h.1 (hb ▸ hc ▸ List.mem_map_of_mem (fun x => x.id) hb2)
      simp only [setFirstBody, hb, if_true, List.map_cons, reduceIte,
        map_applyIf_of_not_mem st rest hrest]
    · simp only [setFirstBody, hb, if_false, List.map_cons, reduceIte, ih h.2]

theorem foldl_setFirstBody_ids (states : List BodyCapture) (bodies : List SimBody) :
    ((states.foldl setFirstBody bodies).map (fun b => b.id)) =
      bodies.map (fun b => b.id) := by
  induction states generalizing bodies with
  | nil => rfl
  | cons st rest ih => rw [List.foldl_cons, ih, setFirstBody_ids]

theorem foldl_setFirstBody_eq (states : List BodyCapture) (bodies : List SimBody)
    (h : (bodies.map (fun b => b.id)).Nodup) :
    states.foldl setFirstBody bodies = bodies.map (restoredBody states) := by
  induction states generalizing bodies with
  | nil =>
    simp only [List.foldl_nil, restoredBody, List.reverse_nil, List.find?_nil]
    exact (List.map_id bodies).symm
  | cons st rest ih =>
    rw [List.foldl_cons, setFirstBody_eq_map bodies st h]
    have hids :
        ((bodies.map fun b => if b.id = st.id then applyCapture st b else b).map
            (fun b => b.id)) = bodies.map (fun b => b.id) := by
      rw [List.map_map]
      apply List.map_congr_left
      intro b _
      by_cases hbb : b.id = st.id <;> simp [Function.comp, hbb, applyCapture]
    rw [ih _ (hids ▸ h), List.map_map]
    apply List.map_congr_left
    intro b _
    simp only [Function.comp]
    by_cases hbb : b.id = st.id
    · simp only [hbb, if_true, reduceIte]
      unfold restoredBody
      rw [applyCapture_id, List.reverse_cons, List.find?_append]
      cases hf : rest.reverse.find? (fun st2 => st2.id = b.id) with
      | some st2 => simp [hbb, applyCapture_overwrite]
      | none => simp [hbb]
    · simp only [hbb, if_false, reduceIte]
      unfold restoredBody
      rw [List.reverse_cons, List.find?_append]
      cases hf : rest.reverse.find? (fun st2 => st2.id = b.id) with
      | some st2 => simp
      | none =>
        have hns : st.id ≠ b.id := fun h2 => hbb h2.symm
        simp [hns]

theorem restoreIntoObj_eq (entry : SnapEntry) (o : SimObj) (h : o.bodyIds.Nodup) :
    restoreIntoObj entry o =
      { o with bodies := o.bodies.map (restoredBody entry.bodyStates) } := by
  unfold restoreIntoObj
  rw [foldl_setFirstBody_eq entry.bodyStates o.bodies h]

theorem restoreIntoObj_bodyIds (entry : SnapEntry) (o : SimObj) :
    (restoreIntoObj entry o).bodyIds = o.bodyIds := by
  unfold restoreIntoObj SimObj.bodyIds
  exact foldl_setFirstBody_ids entry.bodyStates o.bodies

theorem zipdrop_get_of_both {A B : Type} (f : A → B → B) (l1 : List A)
    (l2 : List B) (i : ℕ) (a : A) (b : B) (h1 : l1[i]? = some a)
    (h2 : l2[i]? = some b) :
    (List.zipWith f l1 l2 ++ l2.drop l1.length)[i]? = some (f a b) := by
  induction l1 generalizing l2 i with
  | nil => simp at h1
  | cons a0 r1 ih =>
    cases l2 with
    | nil => simp at h2
    | cons b0 r2 =>
      cases i with
      | zero =>
        simp only [List.getElem?_cons_zero, Option.some.injEq] at h1 h2
        simp [List.zipWith_cons_cons, h1, h2]
      | succ j =>
        simp only [List.getElem?_cons_succ] at h1 h2
        simpa [List.zipWith_cons_cons] using ih r2 j h1 h2

theorem zipdrop_get_of_past {A B : Type} (f : A → B → B) (l1 : List A)
    (l2 : List B) (i : ℕ) (h : l1.length ≤ i) :
    (List.zipWith f l1 l2 ++ l2.drop l1.length)[i]? = l2[i]? := by
  induction l1 generalizing l2 i with
  | nil => simp
  | cons a0 r1 ih =>
    cases l2 with
    | nil => simp
    | cons b0 r2 =>
      cases i with
      | zero => simp at h
      | succ j =>
        have hj : r1.length ≤ j := Nat.le_of_succ_le_succ h
        simpa [List.zipWith_cons_cons] using ih r2 j hj

theorem zipdrop_length {A B : Type} (f : A → B → B) (l1 : List A) (l2 : List B) :
    (List.zipWith f l1 l2 ++ l2.drop l1.length).length = l2.length := by
  simp only [List.length_append, List.length_zipWith, List.length_drop]
  omega

/-! ### C4 — best-effort snapshot restore -/

/-- C4 counterexample: take a snapshot with objects A and B tracked (B's body
at (5,5)), remove A, let the solver move B's body to (9,9), and restore.  B was
present at snapshot time and is still tracked, and its captured state is in the
snapshot, yet the restore leaves B's body at (9,9): the index-based pairing of
snapshot entries with current objects pairs B with A's entry, finds no matching
body id, and skips B instead of restoring it. -/
theorem restore_best_effort_counterexample :
    demoEngineShifted.snapshot =
      some [⟨[captureBody demoBodyA]⟩, ⟨[captureBody demoBodyB]⟩] ∧
    demoEngineShifted.objects.map (fun o => o.oid) = [demoObjB.oid] ∧
    (captureBody demoBodyB).position = (5, 5) ∧
    (demoEngineShifted.restoreSnapshot).objects.map
        (fun o => o.bodies.map (fun b => b.position)) = [[(9, 9)]] ∧
    ((9 : ℚ), (9 : ℚ)) ≠ ((5 : ℚ), (5 : ℚ)) := by
  refine ⟨by decide, by decide, by decide, by decide, by decide⟩

/-- C4 amended: `restoreSnapshot` is a no-op when no snapshot exists; with a
snapshot it never aborts and never changes the number of tracked entities;
objects beyond the snapshot's length are untouched; and the i-th snapshot entry
is applied to the i-th currently tracked entity — each of that entity's bodies
whose id matches a captured state takes the captured position, angle, velocity
and angular velocity and is explicitly woken, while unmatched captured states
and unmatched bodies are skipped.  (Matching is positional: a still-present
entity whose index shifted because the entity set changed is skipped, per the
counterexample.) -/
theorem restore_best_effort_amended (e : Engine) (snap : List SnapEntry)
    (h : e.snapshot = some snap) :
    (∀ e2 : Engine, e2.snapshot = none → e2.restoreSnapshot = e2) ∧
    (e.restoreSnapshot).objects.length = e.objects.length ∧
    (∀ i : ℕ, snap.length ≤ i →
      (e.restoreSnapshot).objects[i]? = e.objects[i]?) ∧
    (∀ i : ℕ, ∀ entry : SnapEntry, ∀ o : SimObj,
      snap[i]? = some entry → e.objects[i]? = some o → o.bodyIds.Nodup →
      (e.restoreSnapshot).objects[i]? =
        some { o with bodies := o.bodies.map (restoredBody entry.bodyStates) }) := by
  have hr : e.restoreSnapshot =
      { e with objects := List.zipWith restoreIntoObj snap e.objects
                            ++ e.objects.drop snap.length } := by
    unfold Engine.restoreSnapshot
    rw [h]
  refine ⟨?_, ?_, ?_, ?_⟩
  · intro e2 h2
    unfold Engine.restoreSnapshot
    rw [h2]
  · rw [hr]
    exact zipdrop_length restoreIntoObj snap e.objects
  · intro i hi
    rw [hr]
    exact zipdrop_get_of_past restoreIntoObj snap e.objects i hi
  · intro i entry o h1 h2 hnd
    rw [hr]
    have := zipdrop_get_of_both restoreIntoObj snap e.objects i entry o h1 h2
    rw [this, restoreIntoObj_eq entry o hnd]

theorem restore_best_effort_amended_witness :
    ((demoEngine.takeSnapshot).restoreSnapshot).objects.length =
      (demoEngine.takeSnapshot).objects.length ∧
    ((demoEngine.takeSnapshot).restoreSnapshot).objects[0]? =
      some { demoObjA with
        bodies := demoObjA.bodies.map (restoredBody [captureBody demoBodyA]) } := by
  have h := restore_best_effort_amended (demoEngine.takeSnapshot)
    [⟨[captureBody demoBodyA]⟩, ⟨[captureBody demoBodyB]⟩] (by decide)
  refine ⟨h.2.1, ?_⟩
  exact h.2.2.2 0 ⟨[captureBody demoBodyA]⟩ demoObjA (by decide) (by decide) (by decide)

/-! ### C5 — snapshot restore idempotence -/

theorem zipWith_restore_idem (snapL : List SnapEntry) (objsL : List SimObj)
    (h : ∀ o ∈ objsL, o.bodyIds.Nodup) :
    List.zipWith restoreIntoObj snapL (List.zipWith restoreIntoObj snapL objsL) =
      List.zipWith restoreIntoObj snapL objsL := by
  induction snapL generalizing objsL with
  | nil => rfl
  | cons s ss ih =>
    cases objsL with
    | nil => rfl
    | cons o rest =>
      have ho : o.bodyIds.Nodup := h o (List.mem_cons_self o rest)
      have hrest : ∀ o2 ∈ rest, o2.bodyIds.Nodup :=
        fun o2 h2 => h o2 (List.mem_cons_of_mem o h2)
      simp only [List.zipWith_cons_cons, List.cons.injEq]
      refine ⟨?_, ih rest hrest⟩
      rw [restoreIntoObj_eq s o ho]
      have hids :
          ({ o with bodies := o.bodies.map (restoredBody s.bodyStates) } :
            SimObj).bodyIds.Nodup := by
        have heq : ({ o with bodies := o.bodies.map (restoredBody s.bodyStates) } :
            SimObj).bodyIds = o.bodyIds := by
          simp only [SimObj.bodyIds, List.map_map]
          apply List.map_congr_left
          intro b _
          simp [Function.comp, restoredBody_id]
        rw [heq]
        exact ho
      rw [restoreIntoObj_eq s _ hids]
      congr 1
      rw [List.map_map]
      apply List.map_congr_left
      intro b _
      simp [Function.comp, restoredBody_idem]

/-- C5: with every tracked entity's body ids distinct (as Matter guarantees),
`takeSnapshot(); restoreSnapshot(); restoreSnapshot();` with no stepping in
between leaves the whole engine state — in particular every body's position,
angle, velocity and angular velocity — identical after the second restore to
its state after the first restore. -/
theorem snapshot_restore_idempotent (e : Engine)
    (h : ∀ o ∈ e.objects, o.bodyIds.Nodup) :
    ((e.takeSnapshot).restoreSnapshot).restoreSnapshot =
      (e.takeSnapshot).restoreSnapshot := by
  set snap : List SnapEntry :=
    e.objects.map (fun o => ⟨o.bodies.map captureBody⟩) with hsnap
  have hlen : snap.length = e.objects.length := by
    rw [hsnap]
    exact List.length_map e.objects _
  have h1 : (e.takeSnapshot).restoreSnapshot =
      { e with snapshot := some snap,
               objects := List.zipWith restoreIntoObj snap e.objects } := by
    show Engine.restoreSnapshot { e with snapshot := some snap } = _
    unfold Engine.restoreSnapshot
    simp only
    rw [hlen, List.drop_length, List.append_nil]
  have hobjs1 : (List.zipWith restoreIntoObj snap e.objects).length = e.objects.length := by
    simp [List.length_zipWith, hlen]
  have hdrop : List.drop snap.length (List.zipWith restoreIntoObj snap e.objects) = [] := by
    apply List.drop_of_length_le
    rw [hobjs1, hlen]
  have h2 : ((e.takeSnapshot).restoreSnapshot).restoreSnapshot =
      { e with snapshot := some snap,
               objects := List.zipWith restoreIntoObj snap
                            (List.zipWith restoreIntoObj snap e.objects) } := by
    rw [h1]
    show Engine.restoreSnapshot _ = _
    unfold Engine.restoreSnapshot
    simp only
    rw [hdrop, List.append_nil]
  rw [h2, h1, zipWith_restore_idem snap e.objects h]

theorem snapshot_restore_idempotent_witness :
    ((demoEngine.takeSnapshot).restoreSnapshot).restoreSnapshot =
      (demoEngine.takeSnapshot).restoreSnapshot := by
  exact snapshot_restore_idempotent demoEngine (by decide)

/-! ### Association-list and erase lemmas for the ownership invariant -/

theorem mapGet_eq_none_of_not_mem (m : List (ℕ × ℕ)) (k : ℕ) :
    k ∉ m.map (fun kv => kv.1) → mapGet m k = none := by
  induction m with
  | nil => intro _; rfl
  | cons kv rest ih =>
    intro h
    simp only [List.map_cons, List.mem_cons, not_or] at h
    obtain ⟨k0, v0⟩ := kv
    simp only [mapGet]
    rw [if_neg (fun hc => h.1 hc.symm), ih h.2]

theorem mapGet_mapSet (m : List (ℕ × ℕ)) (k v k2 : ℕ) :
    mapGet (mapSet m k v) k2 = if k2 = k then some v else mapGet m k2 := by
  induction m with
  | nil =>
    by_cases h : k2 = k
    · subst h
      simp [mapSet, mapGet]
    · have hs : ¬(k = k2) := fun hc => h hc.symm
      simp [mapSet, mapGet, h, hs]
  | cons kv rest ih =>
    obtain ⟨k0, v0⟩ := kv
    by_cases h0 : k0 = k
    · subst h0
      by_cases h2 : k0 = k2
      · subst h2
        simp [mapSet, mapGet]
      · have h2s : ¬(k2 = k0) := fun hc => h2 hc.symm
        simp [mapSet, mapGet, h2, h2s]
    · by_cases h2 : k0 = k2
      · subst h2
        simp [mapSet, mapGet, h0]
      · simp [mapSet, mapGet, h0, h2, ih]

theorem mapSet_keys_mem (m : List (ℕ × ℕ)) (k v x : ℕ) :
    x ∈ (mapSet m k v).map (fun kv => kv.1) → x ∈ m.map (fun kv => kv.1) ∨ x = k := by
  induction m with
  | nil =>
    intro h
    simp [mapSet] at h
    exact Or.inr h
  | cons kv rest ih =>
    intro h
    obtain ⟨k0, v0⟩ := kv
    by_cases h0 : k0 = k
    · subst h0
      simp only [mapSet, reduceIte] at h
      simp only [List.map_cons, List.mem_cons] at h
      rcases h with h | h
      · exact Or.inr h
      · exact Or.inl (List.mem_cons_of_mem _ h)
    · simp only [mapSet, if_neg h0, List.map_cons, List.mem_cons] at h
      rcases h with h | h
      · exact Or.inl (List.mem_cons.mpr (Or.inl h))
      · rcases ih h with h2 | h2
        · exact Or.inl (List.mem_cons_of_mem _ h2)
        · exact Or.inr h2

theorem mapSet_keys_nodup (m : List (ℕ × ℕ)) (k v : ℕ) :
    (m.map (fun kv => kv.1)).Nodup → ((mapSet m k v).map (fun kv => kv.1)).Nodup := by
  induction m with
  | nil =>
    intro _
    simp [mapSet]
  | cons kv rest ih =>
    intro h
    obtain ⟨k0, v0⟩ := kv
    simp only [List.map_cons, List.nodup_cons] at h
    by_cases h0 : k0 = k
    · subst h0
      have hset : mapSet ((k0, v0) :: rest) k0 v = (k0, v) :: rest := by
        simp [mapSet]
      rw [hset]
      simp only [List.map_cons, List.nodup_cons]
      exact ⟨h.1, h.2⟩
    · have hset : mapSet ((k0, v0) :: rest) k v = (k0, v0) :: mapSet rest k v := by
        simp [mapSet, h0]
      rw [hset]
      simp only [List.map_cons, List.nodup_cons]
      refine ⟨fun hc => ?_, ih h.2⟩
      rcases mapSet_keys_mem rest k v k0 hc with h2 | h2
      · exact h.1 h2
      · exact h0 h2

theorem mapGet_foldSet (bodies : List SimBody) (oid : ℕ) (m : List (ℕ × ℕ)) (k : ℕ) :
    mapGet (bodies.foldl (fun m2 b => mapSet m2 b.id oid) m) k =
      if k ∈ bodies.map (fun b => b.id) then some oid else mapGet m k := by
  induction bodies generalizing m with
  | nil => simp
  | cons b rest ih =>
    simp only [List.foldl_cons, List.map_cons, List.mem_cons]
    rw [ih]
    by_cases hr : k ∈ rest.map (fun b => b.id)
    · simp [hr]
    · by_cases hb : k = b.id <;> simp [hr, hb, mapGet_mapSet]

theorem foldSet_keys_nodup (bodies : List SimBody) (oid : ℕ) (m : List (ℕ × ℕ))
    (h : (m.map (fun kv => kv.1)).Nodup) :
    (((bodies.foldl (fun m2 b => mapSet m2 b.id oid) m)).map (fun kv => kv.1)).Nodup := by
  induction bodies generalizing m with
  | nil => exact h
  | cons b rest ih => exact ih _ (mapSet_keys_nodup m b.id oid h)

theorem mapGet_mapDelete_ne (m : List (ℕ × ℕ)) (k k2 : ℕ) (h : k2 ≠ k) :
    mapGet (mapDelete m k) k2 = mapGet m k2 := by
  induction m with
  | nil => rfl
  | cons kv rest ih =>
    obtain ⟨k0, v0⟩ := kv
    by_cases h0 : k0 = k
    · subst h0
      have hne : ¬(k0 = k2) := fun hc => h hc.symm
      simp [mapDelete, mapGet, hne]
    · simp [mapDelete, mapGet, h0, ih]

theorem mapDelete_keys_sublist (m : List (ℕ × ℕ)) (k : ℕ) :
    List.Sublist ((mapDelete m k).map (fun kv => kv.1)) (m.map (fun kv => kv.1)) := by
  induction m with
  | nil => exact List.Sublist.refl _
  | cons kv rest ih =>
    obtain ⟨k0, v0⟩ := kv
    by_cases h0 : k0 = k
    · simp only [mapDelete, if_pos h0, List.map_cons]
      exact List.sublist_cons_self _ _
    · simp only [mapDelete, if_neg h0, List.map_cons]
      exact List.Sublist.cons₂ _ ih

theorem mapGet_mapDelete_self (m : List (ℕ × ℕ)) (k : ℕ) :
    (m.map (fun kv => kv.1)).Nodup → mapGet (mapDelete m k) k = none := by
  induction m with
  | nil => intro _; rfl
  | cons kv rest ih =>
    intro h
    obtain ⟨k0, v0⟩ := kv
    simp only [List.map_cons, List.nodup_cons] at h
    by_cases h0 : k0 = k
    · subst h0
      have hd : mapDelete ((k0, v0) :: rest) k0 = rest := by
        simp [mapDelete]
      rw [hd]
      exact mapGet_eq_none_of_not_mem rest k0 h.1
    · simp only [mapDelete, if_neg h0, mapGet, if_neg h0]
      exact ih h.2

theorem mapGet_foldDelete (ids : List ℕ) :
    ∀ m : List (ℕ × ℕ), (m.map (fun kv => kv.1)).Nodup → ∀ k,
      mapGet (ids.foldl (fun m2 i => mapDelete m2 i) m) k =
        if k ∈ ids then none else mapGet m k := by
  induction ids with
  | nil =>
    intro m _ k
    simp
  | cons i rest ih =>
    intro m h k
    simp only [List.foldl_cons, List.mem_cons]
    rw [ih _ (List.Nodup.sublist (mapDelete_keys_sublist m i) h) k]
    by_cases hr : k ∈ rest
    · simp [hr]
    · by_cases hi : k = i
      · subst hi
        simp [hr, mapGet_mapDelete_self m k h]
      · simp [hr, hi, mapGet_mapDelete_ne m i k hi]

theorem foldDelete_keys_sublist (ids : List ℕ) :
    ∀ m : List (ℕ × ℕ),
      List.Sublist (((ids.foldl (fun m2 i => mapDelete m2 i) m)).map (fun kv => kv.1))
        (m.map (fun kv => kv.1)) := by
  induction ids with
  | nil =>
    intro m
    exact List.Sublist.refl _
  | cons i rest ih =>
    intro m
    exact (ih (mapDelete m i)).trans (mapDelete_keys_sublist m i)

theorem mem_foldl_erase (ids : List ℕ) :
    ∀ l : List ℕ, l.Nodup → ∀ x,
      (x ∈ ids.foldl (fun w i => w.erase i) l ↔ x ∈ l ∧ x ∉ ids) := by
  induction ids with
  | nil =>
    intro l _ x
    simp
  | cons i rest ih =>
    intro l h x
    simp only [List.foldl_cons, List.mem_cons]
    rw [ih _ (List.Nodup.erase i h) x, List.Nodup.mem_erase_iff h]
    constructor
    · rintro ⟨⟨hne, hmem⟩, hnr⟩
      exact ⟨hmem, fun hc => hc.elim hne hnr⟩
    · rintro ⟨hmem, hni⟩
      exact ⟨⟨fun hc => hni (Or.inl hc), hmem⟩, fun hc => hni (Or.inr hc)⟩

theorem foldl_erase_nodup (ids : List ℕ) :
    ∀ l : List ℕ, l.Nodup → (ids.foldl (fun w i => w.erase i) l).Nodup := by
  induction ids with
  | nil => intro l h; exact h
  | cons i rest ih =>
    intro l h
    exact ih _ (List.Nodup.erase i h)

/-! ### C9 — the body-ownership invariant -/

theorem disjoint_symm :
    Symmetric (fun (a b : SimObj) => ∀ i ∈ a.bodyIds, i ∉ b.bodyIds) := by
  intro a b hab i hib hia
  exact hab i hia hib

theorem wf_init (w1 w2 w3 w4 : ℕ) (hw : ([w1, w2, w3, w4] : List ℕ).Nodup) :
    EngineWF (Engine.init w1 w2 w3 w4) := by
  refine ⟨List.nodup_nil, List.nodup_nil, ?_, List.Pairwise.nil, ?_, hw, ?_, List.nodup_nil, ?_⟩
  · intro o ho
    simp [Engine.init] at ho
  · intro o ho
    simp [Engine.init] at ho
  · intro bid
    simp [Engine.init]
  · intro bid v
    simp [Engine.init, mapGet]

theorem wf_addObject (e : Engine) (o : SimObj) (hwf : EngineWF e)
    (hv : validOp e (EngineOp.add o)) : EngineWF (e.addObject o) := by
  obtain ⟨hoid, hids, hfresh⟩ := hv
  have homem : o ∉ e.objects := fun hmem => hoid (List.mem_map_of_mem _ hmem)
  have hobjs : (e.addObject o).objects = e.objects ++ [o] := by
    simp [Engine.addObject, homem]
  have htracked : ∀ o2 ∈ e.objects, ∀ i ∈ o2.bodyIds, i ∈ e.worldBodies := by
    intro o2 h2 i hi
    exact (hwf.worldMem i).mpr (Or.inr ⟨o2, h2, hi⟩)
  have hwallmem : ∀ i ∈ e.walls, i ∈ e.worldBodies := by
    intro i hi
    exact (hwf.worldMem i).mpr (Or.inl hi)
  have hcross : ∀ o2 ∈ e.objects, ∀ i ∈ o2.bodyIds, i ∉ o.bodyIds := by
    intro o2 h2 i hi hio
    exact hfresh i hio (htracked o2 h2 i hi)
  refine ⟨?_, ?_, ?_, ?_, ?_, ?_, ?_, ?_, ?_⟩
  · rw [hobjs, List.nodup_append]
    exact ⟨hwf.objectsNodup, List.nodup_singleton o,
      fun x hx hx1 => homem ((List.mem_singleton.mp hx1) ▸ hx)⟩
  · rw [hobjs, List.map_append, List.nodup_append]
    refine ⟨hwf.oidsNodup, by simp, ?_⟩
    intro x hx hx1
    simp only [List.map_cons, List.map_nil, List.mem_singleton] at hx1
    exact hoid (hx1 ▸ hx)
  · rw [hobjs]
    intro o2 h2
    rcases List.mem_append.mp h2 with h2 | h2
    · exact hwf.bodiesNodup o2 h2
    · rw [List.mem_singleton.mp h2]
      exact hids
  · rw [hobjs, List.pairwise_append]
    refine ⟨hwf.disjointBodies, List.pairwise_singleton _ o, ?_⟩
    intro a ha b hb
    rw [List.mem_singleton.mp hb]
    exact hcross a ha
  · rw [hobjs]
    intro o2 h2 i hi
    rcases List.mem_append.mp h2 with h2 | h2
    · exact hwf.wallsSep o2 h2 i hi
    · rw [List.mem_singleton.mp h2] at hi
      exact fun hc => hfresh i hi (hwallmem i hc)
  · show (e.worldBodies ++ o.bodyIds).Nodup
    rw [List.nodup_append]
    exact ⟨hwf.worldNodup, hids, fun x hx hx1 => hfresh x hx1 hx⟩
  · intro bid
    show bid ∈ e.worldBodies ++ o.bodyIds ↔ _
    rw [hobjs, List.mem_append]
    constructor
    · rintro (h | h)
      · rcases (hwf.worldMem bid).mp h with h2 | ⟨o2, h2, h3⟩
        · exact Or.inl h2
        · exact Or.inr ⟨o2, List.mem_append.mpr (Or.inl h2), h3⟩
      · exact Or.inr ⟨o, List.mem_append.mpr (Or.inr (List.mem_singleton_self o)), h⟩
    · rintro (h | ⟨o2, h2, h3⟩)
      · exact Or.inl ((hwf.worldMem bid).mpr (Or.inl h))
      · rcases List.mem_append.mp h2 with h2 | h2
        · exact Or.inl ((hwf.worldMem bid).mpr (Or.inr ⟨o2, h2, h3⟩))
        · exact Or.inr ((List.mem_singleton.mp h2) ▸ h3)
  · exact foldSet_keys_nodup o.bodies o.oid e.bodyToObject hwf.keysNodup
  · intro bid v
    show mapGet (o.bodies.foldl (fun m b => mapSet m b.id o.oid) e.bodyToObject) bid
        = some v ↔ _
    rw [mapGet_foldSet, hobjs]
    have how : o.bodies.map (fun b => b.id) = o.bodyIds := rfl
    by_cases hb : bid ∈ o.bodyIds
    · rw [how, if_pos hb]
      constructor
      · intro h
        exact ⟨o, List.mem_append.mpr (Or.inr (List.mem_singleton_self o)),
          (Option.some_inj.mp h).symm, hb⟩
      · rintro ⟨o2, h2, h3, h4⟩
        rcases List.mem_append.mp h2 with h2 | h2
        · exact absurd hb (hcross o2 h2 bid h4)
        · rw [List.mem_singleton.mp h2] at h3
          rw [h3]
    · rw [how, if_neg hb]
      rw [hwf.mapChar bid v]
      constructor
      · rintro ⟨o2, h2, h3, h4⟩
        exact ⟨o2, List.mem_append.mpr (Or.inl h2), h3, h4⟩
      · rintro ⟨o2, h2, h3, h4⟩
        rcases List.mem_append.mp h2 with h2 | h2
        · exact ⟨o2, h2, h3, h4⟩
        · rw [List.mem_singleton.mp h2] at h4
          exact absurd h4 hb

theorem wf_removeObject (e : Engine) (o : SimObj) (hwf : EngineWF e)
    (ho : o ∈ e.objects) : EngineWF (e.removeObject o) := by
  have hobjs : (e.removeObject o).objects = e.objects.erase o := rfl
  have hmem_erase : ∀ o2, o2 ∈ e.objects.erase o ↔ o2 ≠ o ∧ o2 ∈ e.objects :=
    fun o2 => List.Nodup.mem_erase_iff hwf.objectsNodup
  have hdisj : ∀ o2 ∈ e.objects, o2 ≠ o → ∀ i ∈ o2.bodyIds, i ∉ o.bodyIds :=
    fun o2 h2 hne => List.Pairwise.forall disjoint_symm hwf.disjointBodies h2 ho hne
  refine ⟨?_, ?_, ?_, ?_, ?_, ?_, ?_, ?_, ?_⟩
  · exact List.Nodup.sublist (List.erase_sublist o e.objects) hwf.objectsNodup
  · exact List.Nodup.sublist (List.Sublist.map _ (List.erase_sublist o e.objects))
      hwf.oidsNodup
  · intro o2 h2
    exact hwf.bodiesNodup o2 (List.mem_of_mem_erase h2)
  · exact List.Pairwise.sublist (List.erase_sublist o e.objects) hwf.disjointBodies
  · intro o2 h2 i hi
    exact hwf.wallsSep o2 (List.mem_of_mem_erase h2) i hi
  · exact foldl_erase_nodup o.bodyIds e.worldBodies hwf.worldNodup
  · intro bid
    show bid ∈ o.bodyIds.foldl (fun w i => w.erase i) e.worldBodies ↔ _
    rw [mem_foldl_erase o.bodyIds e.worldBodies hwf.worldNodup, hobjs]
    constructor
    · rintro ⟨hmem, hni⟩
      rcases (hwf.worldMem bid).mp hmem with h2 | ⟨o2, h2, h3⟩
      · exact Or.inl h2
      · have hne : o2 ≠ o := fun hc => hni (hc ▸ h3)
        exact Or.inr ⟨o2, (hmem_erase o2).mpr ⟨hne, h2⟩, h3⟩
    · rintro (h | ⟨o2, h2, h3⟩)
      · refine ⟨(hwf.worldMem bid).mpr (Or.inl h), fun hc => ?_⟩
        exact hwf.wallsSep o ho bid hc h
      · obtain ⟨hne, h2⟩ := (hmem_erase o2).mp h2
        refine ⟨(hwf.worldMem bid).mpr (Or.inr ⟨o2, h2, h3⟩), ?_⟩
        exact hdisj o2 h2 hne bid h3
  · exact List.Nodup.sublist (foldDelete_keys_sublist o.bodyIds e.bodyToObject)
      hwf.keysNodup
  · intro bid v
    show mapGet (o.bodyIds.foldl (fun m i => mapDelete m i) e.bodyToObject) bid
        = some v ↔ _
    rw [mapGet_foldDelete o.bodyIds e.bodyToObject hwf.keysNodup, hobjs]
    by_cases hb : bid ∈ o.bodyIds
    · simp only [if_pos hb]
      constructor
      · intro h
        exact absurd h (by simp)
      · rintro ⟨o2, h2, h3, h4⟩
        obtain ⟨hne, h2⟩ := (hmem_erase o2).mp h2
        exact absurd hb (hdisj o2 h2 hne bid h4)
    · rw [if_neg hb, hwf.mapChar bid v]
      constructor
      · rintro ⟨o2, h2, h3, h4⟩
        have hne : o2 ≠ o := fun hc => hb (hc ▸ h4)
        exact ⟨o2, (hmem_erase o2).mpr ⟨hne, h2⟩, h3, h4⟩
      · rintro ⟨o2, h2, h3, h4⟩
        exact ⟨o2, List.mem_of_mem_erase h2, h3, h4⟩

theorem wf_foldl_remove (l : List SimObj) :
    ∀ e : Engine, EngineWF e → (∀ x ∈ l, x ∈ e.objects) → l.Nodup →
      EngineWF (l.foldl Engine.removeObject e) := by
  induction l with
  | nil => intro e hwf _ _; exact hwf
  | cons o rest ih =>
    intro e hwf hsub hnd
    simp only [List.nodup_cons] at hnd
    refine ih (e.removeObject o)
      (wf_removeObject e o hwf (hsub o (List.mem_cons_self o rest))) ?_ hnd.2
    intro x hx
    show x ∈ e.objects.erase o
    refine (List.Nodup.mem_erase_iff hwf.objectsNodup).mpr
      ⟨fun hc => hnd.1 (hc ▸ hx), hsub x (List.mem_cons_of_mem o hx)⟩

theorem wf_clear (e : Engine) (hwf : EngineWF e) : EngineWF e.clear :=
  wf_foldl_remove e.objects e hwf (fun _ hx => hx) hwf.objectsNodup

theorem wf_applyOp (e : Engine) (op : EngineOp) (hwf : EngineWF e)
    (hv : validOp e op) : EngineWF (e.applyOp op) := by
  cases op with
  | add o => exact wf_addObject e o hwf hv
  | remove o => exact wf_removeObject e o hwf hv
  | clearAll => exact wf_clear e hwf

theorem wf_applyOps (e : Engine) (ops : List EngineOp) (hwf : EngineWF e)
    (hv : validOps e ops) : EngineWF (e.applyOps ops) := by
  induction ops generalizing e with
  | nil => exact hwf
  | cons op rest ih =>
    obtain ⟨hv1, hv2⟩ := hv
    exact ih (e.applyOp op) (wf_applyOp e op hwf hv1) hv2

theorem wf_ownership (e : Engine) (hwf : EngineWF e) : ownershipInvariant e := by
  intro bid hmem
  rcases (hwf.worldMem bid).mp hmem with h | ⟨o, h2, h3⟩
  · refine Or.inl ⟨h, ?_⟩
    cases hg : mapGet e.bodyToObject bid with
    | none => rfl
    | some v =>
      obtain ⟨o2, ho2, _, h4⟩ := (hwf.mapChar bid v).mp hg
      exact absurd h (hwf.wallsSep o2 ho2 bid h4)
  · exact Or.inr ⟨o, h2, (hwf.mapChar bid o.oid).mpr ⟨o, h2, rfl, h3⟩, h3⟩

/-- C9: starting from a freshly constructed World (four distinct boundary
walls, no tracked entities), every valid sequence of addEntity, removeEntity
and clear operations preserves the body-ownership invariant: each body in the
solver's world is registered to exactly one tracked entity in the
body-to-entity lookup, except the boundary walls, which have no owner. -/
theorem body_ownership_invariant (w1 w2 w3 w4 : ℕ)
    (hw : ([w1, w2, w3, w4] : List ℕ).Nodup) (ops : List EngineOp)
    (hv : validOps (Engine.init w1 w2 w3 w4) ops) :
    ownershipInvariant ((Engine.init w1 w2 w3 w4).applyOps ops) :=
  wf_ownership _ (wf_applyOps _ ops (wf_init w1 w2 w3 w4 hw) hv)

theorem body_ownership_invariant_witness :
    ownershipInvariant ((Engine.init 100 101 102 103).applyOps demoOps) := by
  refine body_ownership_invariant 100 101 102 103 (by decide) demoOps ?_
  simp only [demoOps, validOps, validOp, Engine.applyOp]
  refine ⟨?_, ?_, ?_, ?_, ?_, trivial⟩ <;> decide

end TIM
